import Mathlib

/-!
The mesh scenario script `scratch/mesh_model.cc`.

A shallow embedding of the class `MeshModel` and of `main`.  The script is a
sequence of calls into the simulation library; every effectful library call
(`Create`, `Install`, `Assign`, `Schedule`, ...) is recorded, with the arguments
it receives, in a chronological trace, and the helper objects that the script
configures before such a call are records that the call captures.

Doubles are binary64 values with round-to-nearest-even arithmetic, so that the
packet count `(uint32_t)(m_totalTime*(1/m_packetInterval))` is computed as the
program computes it.
-/

namespace MeshSim

/-! ## binary64 arithmetic -/

/-- A `double`: a finite value (given by the rational it denotes), an infinity
or a NaN.  The two zeros are not distinguished: in this program they differ
only on paths that end in an undefined conversion. -/
inductive F64 where
  | fin (q : ℚ)
  | inf (neg : Bool)
  | nan
  deriving DecidableEq, Repr

/-- Number of halvings that bring `x` below 2 (at most `fuel` of them). -/
def bitLenAux : Nat → Nat → Nat
  | 0, _ => 0
  | fuel + 1, x => if x < 2 then 0 else bitLenAux fuel (x / 2) + 1

/-- Floor of the binary logarithm of a positive natural number. -/
def ilog2 (n : Nat) : Nat := bitLenAux n n

/-- Round the positive rational `n / d` to the nearest value `m * 2 ^ e` with a
53-bit significand and `e ≥ -1074`, ties to the even significand. -/
def roundParts (n d : Nat) : Nat × Int :=
  let k : Int := (ilog2 n : Int) - (ilog2 d : Int)
  let ex : Int := if d * 2 ^ k.toNat ≤ n * 2 ^ (-k).toNat then k else k - 1
  let e : Int := max (ex - 52) (-1074)
  let N := n * 2 ^ (-e).toNat
  let D := d * 2 ^ e.toNat
  let q := N / D
  let r := N % D
  let m := if 2 * r < D then q else if D < 2 * r then q + 1 else if q % 2 = 0 then q else q + 1
  (m, e)

/-- Round a rational to binary64 (round to nearest, ties to even); a result of
magnitude `2 ^ 1024` or more overflows to an infinity. -/
def roundNE (x : ℚ) : F64 :=
  if x = 0 then .fin 0
  else
    let p := roundParts x.num.natAbs x.den
    let v : ℚ := (p.1 : ℚ) * (2 : ℚ) ^ p.2
    if (2 : ℚ) ^ (1024 : Nat) ≤ v then .inf (decide (x < 0))
    else .fin (if x < 0 then -v else v)

/-- The double denoted by a decimal literal of the source text. -/
def F64.lit (q : ℚ) : F64 := roundNE q

/-- Product of two doubles (`a * b`). -/
def F64.mul : F64 → F64 → F64
  | .fin a, .fin b => roundNE (a * b)
  | .fin a, .inf s => if a = 0 then .nan else .inf (xor s (decide (a < 0)))
  | .inf s, .fin b => if b = 0 then .nan else .inf (xor s (decide (b < 0)))
  | .inf s, .inf t => .inf (xor s t)
  | _, _ => .nan

/-- Quotient of two doubles (`a / b`). -/
def F64.div : F64 → F64 → F64
  | .fin a, .fin b =>
    if b = 0 then (if a = 0 then .nan else .inf (decide (a < 0))) else roundNE (a / b)
  | .fin _, .inf _ => .fin 0
  | .inf s, .fin b => .inf (xor s (decide (b < 0)))
  | _, _ => .nan

/-- The conversion `(uint32_t) d`: truncation toward zero; `none` when the
truncated value is not a `uint32_t`, where C++ leaves the conversion undefined. -/
def castU32 : F64 → Option Nat
  | .fin q =>
    let t : Int := if 0 ≤ q then ⌊q⌋ else ⌈q⌉
    if 0 ≤ t ∧ t < 2 ^ 32 then some t.toNat else none
  | _ => none

/-- The conversion of an `int` to `uint32_t` (reduction modulo `2 ^ 32`). -/
def toUint32 (i : Int) : Nat := (i % 2 ^ 32).toNat

/-! ## Values of the simulation library -/

/-- Modelled from the spec: a simulated time of the library's event timeline,
as built by `Seconds (double)`. -/
structure Time where
  seconds : F64
  deriving DecidableEq, Repr

/-- Modelled from the spec: the library's `Seconds (d)`, the simulated time `d`
seconds after the start. -/
def Seconds (d : F64) : Time := ⟨d⟩

/-- Modelled from the spec: the library's `Mac48Address`, a MAC address of six
bytes. -/
structure Mac48Address where
  bytes : List Nat
  deriving DecidableEq, Repr

/-- Modelled from the spec: the library's `Mac48Address::GetBroadcast ()`, the
broadcast address ff:ff:ff:ff:ff:ff. -/
def Mac48Address.GetBroadcast : Mac48Address := ⟨[255, 255, 255, 255, 255, 255]⟩

/-- Modelled from the spec: the library's `Mac48Address::IsBroadcast ()`, the
comparison with the broadcast address. -/
def Mac48Address.IsBroadcast (a : Mac48Address) : Bool := decide (a = Mac48Address.GetBroadcast)

/-- Value of a hexadecimal digit. -/
def hexVal (c : Char) : Option Nat :=
  if 48 ≤ c.toNat ∧ c.toNat ≤ 57 then some (c.toNat - 48)
  else if 97 ≤ c.toNat ∧ c.toNat ≤ 102 then some (c.toNat - 87)
  else if 65 ≤ c.toNat ∧ c.toNat ≤ 70 then some (c.toNat - 55)
  else none

/-- Split a character list at every occurrence of `sep`. -/
def splitOnChar (sep : Char) : List Char → List (List Char)
  | [] => [[]]
  | c :: cs =>
    if c = sep then [] :: splitOnChar sep cs
    else
      match splitOnChar sep cs with
      | [] => [[c]]
      | g :: gs => (c :: g) :: gs

/-- One group of a MAC literal: two hexadecimal digits. -/
def parseByte : List Char → Option Nat
  | [a, b] => (hexVal a).bind fun hi => (hexVal b).map fun lo => 16 * hi + lo
  | _ => none

/-- All the values of a list of options, when none is missing. -/
def allSome {α : Type} : List (Option α) → Option (List α)
  | [] => some []
  | none :: _ => none
  | some a :: rest => (allSome rest).map fun as => a :: as

/-- Modelled from the spec: the constructor `Mac48Address (const char *)` of the
network module, which is not among the sources.  A well-formed MAC address
literal is six groups of two hexadecimal digits separated by colons; any other
string is the spec's InvalidAddressError (`none`). -/
def Mac48Address.ofString (s : String) : Option Mac48Address :=
  let groups := splitOnChar ':' s.toList
  if groups.length = 6 then (allSome (groups.map parseByte)).map Mac48Address.mk else none

/-- Modelled from the spec: the library's `MeshHelper::ChannelPolicy`, whether
the radio interfaces of a node are spread over distinct channels. -/
inductive ChannelPolicy where
  | SPREAD_CHANNELS
  | ZERO_CHANNEL
  deriving DecidableEq, Repr

/-- Modelled from the spec: the library's attribute values, for the kinds the
script builds. -/
inductive AttributeValue where
  | Mac48AddressValue (a : Mac48Address)
  | TimeValue (t : Time)
  | UintegerValue (n : Nat)
  | DoubleValue (d : F64)
  | StringValue (s : String)
  deriving DecidableEq, Repr

/-- Modelled from the spec: a named library type with the attributes set on it
(the library's `ObjectFactory`). -/
structure ObjectFactory where
  typeId : String
  attrs : List (String × AttributeValue)
  deriving DecidableEq, Repr

/-- Modelled from the spec: an entry of the mesh device set (the library's
`NetDeviceContainer`): the node it sits on and its position among the entries
of that node. -/
structure NetDevice where
  node : Nat
  index : Nat
  deriving DecidableEq, Repr

/-- Modelled from the spec: `MeshHelper` of the mesh module, which is not among
the sources: a mesh-stack installer that installs a named protocol stack,
optionally with a root address, across one or more radio interfaces per node,
with configurable per-node start jitter. -/
structure MeshHelper where
  stack : Option ObjectFactory
  spread : ChannelPolicy
  mac : List (String × AttributeValue)
  nInterfaces : Nat
  deriving DecidableEq, Repr

/-- Modelled from the spec: `MeshHelper::Default ()`; every setting the script
relies on is set by `CreateNodes` after this call. -/
def MeshHelper.Default : MeshHelper :=
  { stack := none, spread := .SPREAD_CHANNELS, mac := [], nInterfaces := 1 }

/-- Modelled from the spec: `MeshHelper::SetStackInstaller (type, name, value)`,
which names the protocol stack and the attributes it is created with. -/
def MeshHelper.SetStackInstaller (h : MeshHelper) (type : String)
    (attrs : List (String × AttributeValue)) : MeshHelper :=
  { h with stack := some ⟨type, attrs⟩ }

/-- Modelled from the spec: `MeshHelper::SetSpreadInterfaceChannels`. -/
def MeshHelper.SetSpreadInterfaceChannels (h : MeshHelper) (p : ChannelPolicy) : MeshHelper :=
  { h with spread := p }

/-- Modelled from the spec: `MeshHelper::SetMacType (name, value)`, which sets the
attributes of the mesh MAC, the start jitter among them. -/
def MeshHelper.SetMacType (h : MeshHelper) (attrs : List (String × AttributeValue)) :
    MeshHelper :=
  { h with mac := attrs }

/-- Modelled from the spec: `MeshHelper::SetNumberOfInterfaces`. -/
def MeshHelper.SetNumberOfInterfaces (h : MeshHelper) (n : Nat) : MeshHelper :=
  { h with nInterfaces := n }

/-- Modelled from the spec: the number of device-set entries per node, one entry
per node (or per radio interface per node, if interface count > 1). -/
def MeshHelper.entriesPerNode (h : MeshHelper) : Nat :=
  if h.nInterfaces > 1 then h.nInterfaces else 1

/-- Modelled from the spec: `MeshHelper::Install`, which produces the mesh
device set in node order. -/
def MeshHelper.Install (h : MeshHelper) (nodes : List Nat) : List NetDevice :=
  (nodes.map fun n => (List.range h.entriesPerNode).map fun j => NetDevice.mk n j).flatten

/-- Modelled from the spec: `NodeContainer::Create (n)` of the network module:
`n` new nodes, numbered in creation order, are appended. -/
def NodeContainer.Create (nodes : List Nat) (n : Nat) : List Nat :=
  nodes ++ List.range' nodes.length n

/-- Modelled from the spec: an IPv4 address handed out by the address helper,
the `host`-th address of the network `network` with mask `mask`. -/
structure Ipv4Address where
  network : String
  mask : String
  host : Nat
  deriving DecidableEq, Repr

/-- Modelled from the spec: the library's `Ipv4AddressHelper` after `SetBase`. -/
structure Ipv4AddressHelper where
  network : String
  mask : String
  deriving DecidableEq, Repr

/-- Modelled from the spec: `Ipv4AddressHelper::Assign`, subnet base + mask to
per-device addresses, in the order of the device set. -/
def Ipv4AddressHelper.Assign (a : Ipv4AddressHelper) (devices : List NetDevice) :
    List (NetDevice × Ipv4Address) :=
  (devices.zip (List.range devices.length)).map fun p => (p.1, ⟨a.network, a.mask, p.2 + 1⟩)

/-- Modelled from the spec: the library's `UdpEchoServerHelper (port)`. -/
structure UdpEchoServerHelper where
  port : Nat
  deriving DecidableEq, Repr

/-- Modelled from the spec: the library's `UdpEchoClientHelper (address, port)`
with the attributes set on it. -/
structure UdpEchoClientHelper where
  remote : Ipv4Address
  port : Nat
  attrs : List (String × AttributeValue)
  deriving DecidableEq, Repr

/-- Modelled from the spec: `UdpEchoClientHelper::SetAttribute`. -/
def UdpEchoClientHelper.SetAttribute (h : UdpEchoClientHelper) (name : String)
    (v : AttributeValue) : UdpEchoClientHelper :=
  { h with attrs := h.attrs ++ [(name, v)] }

/-- Modelled from the spec: the library's `MobilityHelper`, a position allocator
and a mobility model with named parameters. -/
structure MobilityHelper where
  position : Option ObjectFactory
  model : Option ObjectFactory
  deriving DecidableEq, Repr

/-- The two application containers of `InstallApplication`. -/
inductive AppKind where
  | serverApps
  | clientApps
  deriving DecidableEq, Repr

/-- The callbacks the script schedules. -/
inductive Callback where
  | Report
  deriving DecidableEq, Repr

/-- The effectful library calls of the script, with their arguments. -/
inductive Call where
  | LogComponentEnable (component level : String)
  | NodesCreate (n : Nat)
  | WifiChannelCreate
  | MeshInstall (mesh : MeshHelper) (nodes : List Nat)
  | MobilityInstall (mobility : MobilityHelper) (nodes : List Nat)
  | InternetStackInstall (nodes : List Nat)
  | AddressAssign (address : Ipv4AddressHelper) (devices : List NetDevice)
  | EchoServerInstall (server : UdpEchoServerHelper) (node : Nat)
  | EchoClientInstall (client : UdpEchoClientHelper) (node : Nat)
  | AppStart (app : AppKind) (t : Time)
  | AppStop (app : AppKind) (t : Time)
  | SimulatorSchedule (t : Time) (cb : Callback)
  | SimulatorStop (t : Time)
  | SimulatorRun
  | SimulatorDestroy
  deriving DecidableEq, Repr

/-- The ways the script stops before `Run` returns. -/
inductive Error where
  | parseError
  | unknownOption
  | invalidAddress
  | outOfRange
  | undefinedConversion
  deriving DecidableEq, Repr

/-- An aborted execution: the cause and the library calls made before it. -/
structure Abort where
  error : Error
  trace : List Call
  deriving DecidableEq, Repr

/-! ## The class `MeshModel` -/

/-- The data members of `MeshModel`. -/
structure MeshModel where
  m_x : F64
  m_y : F64
  m_xSize : Int
  m_ySize : Int
  m_randomStart : F64
  m_totalTime : F64
  m_packetInterval : F64
  m_packetSize : Nat
  m_nIfaces : Nat
  m_stack : String
  m_root : String
  nodes : List Nat
  meshDevices : List NetDevice
  interfaces : List (NetDevice × Ipv4Address)
  mesh : MeshHelper
  deriving DecidableEq, Repr

/-- The constructor `MeshModel::MeshModel ()` (lines 89-102); the containers
start empty and the member `mesh` is replaced in `CreateNodes` before it is
used. -/
def MeshModel.new : MeshModel :=
  { m_x := .fin 100
    m_y := .fin 100
    m_xSize := 3
    m_ySize := 3
    m_randomStart := F64.lit (1 / 10)
    m_totalTime := F64.lit 5
    m_packetInterval := F64.lit (1 / 10)
    m_packetSize := 1024
    m_nIfaces := 1
    m_stack := "ns3::Dot11sStack"
    m_root := "ff:ff:ff:ff:ff:ff"
    nodes := []
    meshDevices := []
    interfaces := []
    mesh := { stack := none, spread := .ZERO_CHANNEL, mac := [], nInterfaces := 1 } }

/-! ## Command line -/

/-- Value of a decimal digit. -/
def digitVal (c : Char) : Option Nat :=
  if 48 ≤ c.toNat ∧ c.toNat ≤ 57 then some (c.toNat - 48) else none

/-- Value of a string of decimal digits, continuing from `acc`. -/
def digitsVal : List Char → Nat → Option Nat
  | [], acc => some acc
  | c :: cs, acc => (digitVal c).bind fun d => digitsVal cs (10 * acc + d)

/-- An unsigned decimal numeral: one or more digits. -/
def parseNat (cs : List Char) : Option Nat :=
  if cs = [] then none else digitsVal cs 0

/-- An unsigned decimal: digits, optionally followed by a point and digits. -/
def parseUnsignedDecimal (cs : List Char) : Option ℚ :=
  match splitOnChar '.' cs with
  | [ip] => (parseNat ip).map fun n => (n : ℚ)
  | [ip, fp] =>
    (parseNat ip).bind fun n =>
      (digitsVal fp 0).map fun f => (n : ℚ) + (f : ℚ) / (10 : ℚ) ^ fp.length
  | _ => none

/-- A decimal with an optional sign. -/
def parseDecimal : List Char → Option ℚ
  | '-' :: cs => (parseUnsignedDecimal cs).map fun q => -q
  | '+' :: cs => parseUnsignedDecimal cs
  | cs => parseUnsignedDecimal cs

/-- Modelled from the spec: parsing of a float option value by `CommandLine`
(core module, not among the sources): a decimal numeral is read as the nearest
double, anything else is malformed. -/
def parseDouble (s : String) : Option F64 := (parseDecimal s.toList).map roundNE

/-- Modelled from the spec: parsing of an unsigned integer option value of the
given width by `CommandLine`; a numeral that does not fit is malformed. -/
def parseUnsigned (bits : Nat) (s : String) : Option Nat :=
  (parseNat s.toList).bind fun n => if n < 2 ^ bits then some n else none

/-- Modelled from the spec: one option registered with `CommandLine::AddValue`:
its name, its help text and the way its value text is stored into the member
bound to it. -/
structure CommandLine.Item where
  name : String
  help : String
  store : String → MeshModel → Option MeshModel

/-- Modelled from the spec: `CommandLine` of the core module, which is not among
the sources: the options registered so far, in registration order. -/
abbrev CommandLine := List CommandLine.Item

/-- Modelled from the spec: `CommandLine::AddValue (name, help, value)` for a
`double` member. -/
def CommandLine.AddDouble (cmd : CommandLine) (name help : String)
    (set : MeshModel → F64 → MeshModel) : CommandLine :=
  cmd ++ [⟨name, help, fun v self => (parseDouble v).map (set self)⟩]

/-- Modelled from the spec: `CommandLine::AddValue (name, help, value)` for an
unsigned member of the given width. -/
def CommandLine.AddUnsigned (cmd : CommandLine) (bits : Nat) (name help : String)
    (set : MeshModel → Nat → MeshModel) : CommandLine :=
  cmd ++ [⟨name, help, fun v self => (parseUnsigned bits v).map (set self)⟩]

/-- Modelled from the spec: `CommandLine::AddValue (name, help, value)` for a
`std::string` member. -/
def CommandLine.AddString (cmd : CommandLine) (name help : String)
    (set : MeshModel → String → MeshModel) : CommandLine :=
  cmd ++ [⟨name, help, fun v self => some (set self v)⟩]

/-- Modelled from the spec: the form of an argument of `CommandLine`, split into
name and value at the first `=`; without `=` the value is empty. -/
def lexArgument (tok : String) : Option (String × String) :=
  match tok.toList with
  | '-' :: '-' :: rest =>
    let name := rest.takeWhile fun c => c ≠ '='
    let value := (rest.dropWhile fun c => c ≠ '=').drop 1
    some (String.mk name, String.mk value)
  | _ => none

/-- Modelled from the spec: the handling of one argument by `CommandLine`: a
recognized option overwrites the member bound to it by the parsed value; a
malformed value fails with a ParseError. -/
def CommandLine.HandleArgument (cmd : CommandLine) (name value : String) (self : MeshModel) :
    Except Error MeshModel :=
  match cmd.find? fun it => it.name = name with
  | none => .error .unknownOption
  | some it =>
    match it.store value self with
    | none => .error .parseError
    | some self1 => .ok self1

/-- Modelled from the spec: `CommandLine::Parse (argc, argv)`: the arguments
after the program name are handled from left to right. -/
def CommandLine.ParseArgs (cmd : CommandLine) : List String → MeshModel → Except Error MeshModel
  | [], self => .ok self
  | tok :: rest, self =>
    match lexArgument tok with
    | none => .error .unknownOption
    | some (name, value) =>
      match CommandLine.HandleArgument cmd name value self with
      | .error e => .error e
      | .ok self1 => CommandLine.ParseArgs cmd rest self1

/-- Modelled from the spec: `CommandLine::Parse (argc, argv)`; `argv` starts with
the program name. -/
def CommandLine.Parse (cmd : CommandLine) (argv : List String) (self : MeshModel) :
    Except Error MeshModel :=
  CommandLine.ParseArgs cmd argv.tail self

/-- The options `MeshModel::Configure` registers (lines 108-120), in order. -/
def MeshModel.commandLine : CommandLine :=
  let cmd : CommandLine := []
  let cmd := cmd.AddDouble "x" "X coordinate of the disk center. [100.0]"
    fun self v => { self with m_x := v }
  let cmd := cmd.AddDouble "y" "Y coordinate of the disk center. [100.0]"
    fun self v => { self with m_y := v }
  let cmd := cmd.AddDouble "start" "Maximum random start delay, seconds. [0.1 s]"
    fun self v => { self with m_randomStart := v }
  let cmd := cmd.AddDouble "time" "Simulation time, seconds [1 s]"
    fun self v => { self with m_totalTime := v }
  let cmd := cmd.AddDouble "packet-interval"
    "Interval between packets in UDP ping, seconds [0.001 s]"
    fun self v => { self with m_packetInterval := v }
  let cmd := cmd.AddUnsigned 16 "packet-size" "Size of packets in UDP ping"
    fun self v => { self with m_packetSize := v }
  let cmd := cmd.AddUnsigned 32 "interfaces"
    "Number of radio interfaces used by each mesh point. [1]"
    fun self v => { self with m_nIfaces := v }
  let cmd := cmd.AddString "stack" "Type of protocol stack. ns3::Dot11sStack by default"
    fun self v => { self with m_stack := v }
  let cmd := cmd.AddString "root" "Mac address of root mesh point in HWMP"
    fun self v => { self with m_root := v }
  cmd

/-- The method `MeshModel::Configure (argc, argv)` (lines 104-123). -/
def MeshModel.Configure (self : MeshModel) (argv : List String) : Except Error MeshModel :=
  CommandLine.Parse MeshModel.commandLine argv self

/-! ## Scenario set-up -/

/-- The packet count `(uint32_t)(m_totalTime*(1/m_packetInterval))` (line 191). -/
def MeshModel.maxPackets (self : MeshModel) : Option Nat :=
  castU32 (F64.mul self.m_totalTime (F64.div (.fin 1) self.m_packetInterval))

/-- The position allocator `CreateNodes` sets on the mobility helper
(lines 160-163). -/
def positionAllocator : ObjectFactory :=
  { typeId := "ns3::RandomDiscPositionAllocator"
    attrs := [("X", .DoubleValue (F64.lit 100)), ("Y", .DoubleValue (F64.lit 100)),
      ("Rho", .StringValue "ns3::UniformRandomVariable[Min=0|Max=30]")] }

/-- The mobility model `CreateNodes` sets on the mobility helper
(lines 164-168). -/
def mobilityModel : ObjectFactory :=
  { typeId := "ns3::RandomWalk2dMobilityModel"
    attrs := [("Mode", .StringValue "Time"), ("Time", .StringValue "5s"),
      ("Speed", .StringValue "ns3::ConstantRandomVariable[Constant=1.5]"),
      ("Bounds", .StringValue "0|200|0|200")] }

/-- The method `MeshModel::CreateNodes ()` (lines 125-171). -/
def MeshModel.CreateNodes (self : MeshModel) (tr : List Call) :
    Except Abort (MeshModel × List Call) :=
  let n := toUint32 (self.m_xSize * self.m_ySize)
  let self := { self with nodes := NodeContainer.Create self.nodes n }
  let tr := tr ++ [.NodesCreate n]
  let tr := tr ++ [.WifiChannelCreate]
  let self := { self with mesh := MeshHelper.Default }
  match Mac48Address.ofString self.m_root with
  | none => .error ⟨.invalidAddress, tr⟩
  | some root =>
    let mesh :=
      if !root.IsBroadcast then
        self.mesh.SetStackInstaller self.m_stack [("Root", .Mac48AddressValue root)]
      else
        self.mesh.SetStackInstaller self.m_stack []
    let mesh := mesh.SetSpreadInterfaceChannels .SPREAD_CHANNELS
    let mesh := mesh.SetMacType [("RandomStart", .TimeValue (Seconds self.m_randomStart))]
    let mesh := mesh.SetNumberOfInterfaces self.m_nIfaces
    let self := { self with mesh := mesh }
    let self := { self with meshDevices := self.mesh.Install self.nodes }
    let tr := tr ++ [.MeshInstall self.mesh self.nodes]
    let mobility : MobilityHelper := { position := none, model := none }
    let mobility := { mobility with position := some positionAllocator }
    let mobility := { mobility with model := some mobilityModel }
    let tr := tr ++ [.MobilityInstall mobility self.nodes]
    .ok (self, tr)

/-- The method `MeshModel::InstallInternetStack ()` (lines 173-181). -/
def MeshModel.InstallInternetStack (self : MeshModel) (tr : List Call) :
    Except Abort (MeshModel × List Call) :=
  let tr := tr ++ [.InternetStackInstall self.nodes]
  let address : Ipv4AddressHelper := { network := "10.1.1.0", mask := "255.255.255.0" }
  let self := { self with interfaces := address.Assign self.meshDevices }
  let tr := tr ++ [.AddressAssign address self.meshDevices]
  .ok (self, tr)

/-- The method `MeshModel::InstallApplication ()` (lines 183-197). -/
def MeshModel.InstallApplication (self : MeshModel) (tr : List Call) :
    Except Abort (MeshModel × List Call) :=
  let echoServer : UdpEchoServerHelper := { port := 9 }
  match self.nodes[0]? with
  | none => .error ⟨.outOfRange, tr⟩
  | some first =>
    let tr := tr ++ [.EchoServerInstall echoServer first]
    let tr := tr ++ [.AppStart .serverApps (Seconds (F64.lit 0))]
    let tr := tr ++ [.AppStop .serverApps (Seconds self.m_totalTime)]
    match self.interfaces[0]? with
    | none => .error ⟨.outOfRange, tr⟩
    | some iface =>
      let echoClient : UdpEchoClientHelper := { remote := iface.2, port := 9, attrs := [] }
      match self.maxPackets with
      | none => .error ⟨.undefinedConversion, tr⟩
      | some count =>
        let echoClient := echoClient.SetAttribute "MaxPackets" (.UintegerValue count)
        let echoClient :=
          echoClient.SetAttribute "Interval" (.TimeValue (Seconds self.m_packetInterval))
        let echoClient := echoClient.SetAttribute "PacketSize" (.UintegerValue self.m_packetSize)
        match self.nodes[toUint32 (self.m_xSize * self.m_ySize - 1)]? with
        | none => .error ⟨.outOfRange, tr⟩
        | some last =>
          let tr := tr ++ [.EchoClientInstall echoClient last]
          let tr := tr ++ [.AppStart .clientApps (Seconds (F64.lit 0))]
          let tr := tr ++ [.AppStop .clientApps (Seconds self.m_totalTime)]
          .ok (self, tr)

/-- The method `MeshModel::Run ()` (lines 199-210): the return value, the object
and the trace. -/
def MeshModel.Run (self : MeshModel) (tr : List Call) :
    Except Abort (Int × MeshModel × List Call) :=
  match self.CreateNodes tr with
  | .error a => .error a
  | .ok (self, tr) =>
    match self.InstallInternetStack tr with
    | .error a => .error a
    | .ok (self, tr) =>
      match self.InstallApplication tr with
      | .error a => .error a
      | .ok (self, tr) =>
        let tr := tr ++ [.SimulatorSchedule (Seconds self.m_totalTime) .Report]
        let tr := tr ++ [.SimulatorStop (Seconds self.m_totalTime)]
        let tr := tr ++ [.SimulatorRun]
        let tr := tr ++ [.SimulatorDestroy]
        .ok (0, self, tr)

/-- The loop of `MeshModel::Report ()` (lines 215-218), from iterator position
`i`; the devices visited so far are collected in `visited`. -/
def MeshModel.Report.loop (devices : List NetDevice) (i : Nat) (hi : i ≤ devices.length)
    (visited : List NetDevice) : List NetDevice :=
  if h : i ≠ devices.length then
    MeshModel.Report.loop devices (i + 1) (by omega)
      (visited ++ [devices.get ⟨i, by omega⟩])
  else visited
termination_by devices.length - i

/-- The method `MeshModel::Report ()`: the object after the call and the devices
the loop visited, in order. -/
def MeshModel.Report (self : MeshModel) : MeshModel × List NetDevice :=
  (self, MeshModel.Report.loop self.meshDevices 0 (Nat.zero_le _) [])

/-- The function `main (argc, argv)` (lines 221-228). -/
def main (argv : List String) : Except Abort (Int × MeshModel × List Call) :=
  let t := MeshModel.new
  let tr : List Call := [.LogComponentEnable "UdpEchoClientApplication" "LOG_LEVEL_INFO"]
  match t.Configure argv with
  | .error e => .error ⟨e, tr⟩
  | .ok t => t.Run tr

/-- The library calls of an execution, completed or aborted. -/
def traceOf : Except Abort (Int × MeshModel × List Call) → List Call
  | .ok r => r.2.2
  | .error a => a.trace

/-! ## Notions used to state the properties -/

/-- The configurations the program runs with: what `Configure` makes of the
freshly constructed object on some command line. -/
def MeshModel.Configured (self : MeshModel) : Prop :=
  ∃ argv : List String, MeshModel.new.Configure argv = .ok self

/-- The recognised options of the command line. -/
inductive Opt where
  | x
  | y
  | start
  | time
  | packetInterval
  | packetSize
  | interfaces
  | stack
  | root
  deriving DecidableEq, Repr

/-- The name of an option on the command line. -/
def Opt.name : Opt → String
  | .x => "x"
  | .y => "y"
  | .start => "start"
  | .time => "time"
  | .packetInterval => "packet-interval"
  | .packetSize => "packet-size"
  | .interfaces => "interfaces"
  | .stack => "stack"
  | .root => "root"

/-- The argument `--name=value` naming an option. -/
def Opt.render (a : Opt × String) : String :=
  String.mk ('-' :: '-' :: (a.1.name.toList ++ '=' :: a.2.toList))

/-- A value text is well-formed for an option: a decimal for the float options,
a numeral that fits for the unsigned ones, a MAC literal for the root, any text
for the stack name. -/
def Opt.wellFormed : Opt → String → Bool
  | .x, v => (parseDouble v).isSome
  | .y, v => (parseDouble v).isSome
  | .start, v => (parseDouble v).isSome
  | .time, v => (parseDouble v).isSome
  | .packetInterval, v => (parseDouble v).isSome
  | .packetSize, v => (parseUnsigned 16 v).isSome
  | .interfaces, v => (parseUnsigned 32 v).isSome
  | .stack, _ => true
  | .root, v => (Mac48Address.ofString v).isSome

/-- The value text of the last occurrence of an option on a command line. -/
def lastValue (o : Opt) : List (Opt × String) → Option String
  | [] => none
  | a :: rest =>
    match lastValue o rest with
    | some w => some w
    | none => if a.1 = o then some a.2 else none

/-- The configuration the spec prescribes for a command line of recognised
options, starting from `base`: every field named on the command line holds its
parsed value, every other field is the one of `base`. -/
def MeshModel.configureSpec (base : MeshModel) (as : List (Opt × String)) : MeshModel :=
  { base with
    m_x := ((lastValue .x as).bind parseDouble).getD base.m_x
    m_y := ((lastValue .y as).bind parseDouble).getD base.m_y
    m_randomStart := ((lastValue .start as).bind parseDouble).getD base.m_randomStart
    m_totalTime := ((lastValue .time as).bind parseDouble).getD base.m_totalTime
    m_packetInterval :=
      ((lastValue .packetInterval as).bind parseDouble).getD base.m_packetInterval
    m_packetSize := ((lastValue .packetSize as).bind (parseUnsigned 16)).getD base.m_packetSize
    m_nIfaces := ((lastValue .interfaces as).bind (parseUnsigned 32)).getD base.m_nIfaces
    m_stack := (lastValue .stack as).getD base.m_stack
    m_root := (lastValue .root as).getD base.m_root }

/-- The set-up phases whose order the spec fixes. -/
inductive Phase where
  | deviceInstall
  | addressAssign
  | applicationInstall
  deriving DecidableEq, Repr

/-- The phase a library call belongs to, for the calls that complete a phase. -/
def Call.phase : Call → Option Phase
  | .MeshInstall _ _ => some .deviceInstall
  | .AddressAssign _ _ => some .addressAssign
  | .EchoServerInstall _ _ => some .applicationInstall
  | .EchoClientInstall _ _ => some .applicationInstall
  | _ => none

/-- The events a call puts on the simulator's timeline. -/
def Call.scheduled : Call → Option (Time × Callback)
  | .SimulatorSchedule t cb => some (t, cb)
  | _ => none

/-- The stop time a call sets on the simulator. -/
def Call.stopTime : Call → Option Time
  | .SimulatorStop t => some t
  | _ => none

/-- A call with the radio-interface count handed to the mesh installer, and the
device set that results from it, blanked out. -/
def Call.forgetInterfaces : Call → Call
  | .MeshInstall mesh nodes => .MeshInstall { mesh with nInterfaces := 0 } nodes
  | .AddressAssign address _ => .AddressAssign address []
  | c => c

/-- The members `Configure` never writes. -/
def Frame (a b : MeshModel) : Prop :=
  a.m_xSize = b.m_xSize ∧ a.m_ySize = b.m_ySize ∧ a.nodes = b.nodes ∧
    a.meshDevices = b.meshDevices ∧ a.interfaces = b.interfaces ∧ a.mesh = b.mesh

/-- The nine nodes of the 3 x 3 grid, in creation order. -/
def gridNodes : List Nat := [0, 1, 2, 3, 4, 5, 6, 7, 8]

/-- The mesh helper `CreateNodes` hands to `Install` when the root text denotes
the address `a`. -/
def MeshModel.meshFor (self : MeshModel) (a : Mac48Address) : MeshHelper :=
  { stack := some ⟨self.m_stack,
      if a = Mac48Address.GetBroadcast then [] else [("Root", .Mac48AddressValue a)]⟩
    spread := .SPREAD_CHANNELS
    mac := [("RandomStart", .TimeValue (Seconds self.m_randomStart))]
    nInterfaces := self.m_nIfaces }

/-- The address helper of `InstallInternetStack`. -/
def addressBase : Ipv4AddressHelper := { network := "10.1.1.0", mask := "255.255.255.0" }

/-- The echo client helper `InstallApplication` installs for packet count `n`. -/
def MeshModel.clientFor (self : MeshModel) (n : Nat) : UdpEchoClientHelper :=
  { remote := ⟨"10.1.1.0", "255.255.255.0", 1⟩
    port := 9
    attrs := [("MaxPackets", .UintegerValue n),
      ("Interval", .TimeValue (Seconds self.m_packetInterval)),
      ("PacketSize", .UintegerValue self.m_packetSize)] }

/-- The library calls of a completed `Run`, for root address `a` and packet
count `n`. -/
def MeshModel.runCalls (self : MeshModel) (a : Mac48Address) (n : Nat) : List Call :=
  [.NodesCreate 9, .WifiChannelCreate,
    .MeshInstall (self.meshFor a) gridNodes,
    .MobilityInstall ⟨some positionAllocator, some mobilityModel⟩ gridNodes,
    .InternetStackInstall gridNodes,
    .AddressAssign addressBase ((self.meshFor a).Install gridNodes),
    .EchoServerInstall ⟨9⟩ 0,
    .AppStart .serverApps (Seconds (F64.lit 0)),
    .AppStop .serverApps (Seconds self.m_totalTime),
    .EchoClientInstall (self.clientFor n) 8,
    .AppStart .clientApps (Seconds (F64.lit 0)),
    .AppStop .clientApps (Seconds self.m_totalTime),
    .SimulatorSchedule (Seconds self.m_totalTime) .Report,
    .SimulatorStop (Seconds self.m_totalTime),
    .SimulatorRun, .SimulatorDestroy]

/-- The value of the attribute `name` on the first echo client installed in a
trace. -/
def clientAttribute (name : String) : List Call → Option AttributeValue
  | [] => none
  | .EchoClientInstall client _ :: _ => (client.attrs.find? fun p => p.1 = name).map fun p => p.2
  | _ :: rest => clientAttribute name rest

/-! ## Rounding error of binary64 arithmetic -/

/-- With enough fuel, `bitLenAux` brackets a positive number between two powers of two. -/
theorem bitLenAux_spec (fuel : Nat) : ∀ x : Nat, x ≤ fuel → 1 ≤ x →
    2 ^ bitLenAux fuel x ≤ x ∧ x < 2 ^ (bitLenAux fuel x + 1) := by
  induction fuel with
  | zero => intro x h1 h2; omega
  | succ f ih =>
    intro x h1 h2
    unfold bitLenAux
    split_ifs with hx
    · constructor
      · simpa using h2
      · simpa using hx
    · have hx2 : 1 ≤ x / 2 := by omega
      have hxf : x / 2 ≤ f := by omega
      obtain ⟨a, b⟩ := ih (x / 2) hxf hx2
      constructor
      · rw [pow_succ]; omega
      · rw [pow_succ]; omega

/-- Lower bracket of `ilog2`. -/
theorem ilog2_le (n : Nat) (h : 1 ≤ n) : 2 ^ ilog2 n ≤ n :=
  (bitLenAux_spec n n le_rfl h).1

/-- Upper bracket of `ilog2`. -/
theorem lt_ilog2 (n : Nat) (h : 1 ≤ n) : n < 2 ^ (ilog2 n + 1) :=
  (bitLenAux_spec n n le_rfl h).2

/-- An integer power of two as a quotient of two natural powers. -/
theorem zpow_two_split (e : Int) :
    (2 : ℚ) ^ e = (2 : ℚ) ^ e.toNat / (2 : ℚ) ^ (-e).toNat := by
  rcases le_total 0 e with h | h
  · have h1 : (-e).toNat = 0 := by omega
    have h2 : (e.toNat : Int) = e := Int.toNat_of_nonneg h
    rw [h1, pow_zero, div_one]
    conv_lhs => rw [← h2]
    rw [zpow_natCast]
  · have h1 : e.toNat = 0 := by omega
    have h2 : ((-e).toNat : Int) = -e := Int.toNat_of_nonneg (by omega)
    have h3 : e = -((-e).toNat : Int) := by omega
    rw [h1, pow_zero, one_div]
    conv_lhs => rw [h3]
    rw [zpow_neg, zpow_natCast]

/-- The binade exponent chosen by `roundParts` is a lower bound of the input. -/
theorem exponent_le (n d : Nat) (hn : 1 ≤ n) (hd : 1 ≤ d) (k ex : Int)
    (hk : k = (ilog2 n : Int) - (ilog2 d : Int))
    (hex : ex = if d * 2 ^ k.toNat ≤ n * 2 ^ (-k).toNat then k else k - 1) :
    (2 : ℚ) ^ ex ≤ (n : ℚ) / d := by
  have hdq : (0 : ℚ) < d := by exact_mod_cast hd
  rw [le_div_iff₀ hdq]
  split_ifs at hex with hc
  · rw [hex, zpow_two_split, div_mul_eq_mul_div, div_le_iff₀ (by positivity)]
    have : ((d * 2 ^ k.toNat : Nat) : ℚ) ≤ ((n * 2 ^ (-k).toNat : Nat) : ℚ) := by
      exact_mod_cast hc
    push_cast at this
    linarith
  · have h1 : (2 : ℚ) ^ ilog2 n ≤ n := by exact_mod_cast ilog2_le n hn
    have h2 : (d : ℚ) ≤ 2 ^ (ilog2 d + 1) := by exact_mod_cast (lt_ilog2 d hd).le
    have h3 : (2 : ℚ) ^ (k - 1) = (2 : ℚ) ^ ilog2 n / (2 : ℚ) ^ (ilog2 d + 1) := by
      rw [hk, ← zpow_natCast, ← zpow_natCast, ← zpow_sub₀ (by norm_num)]
      congr 1
      push_cast
      ring
    rw [hex, h3, div_mul_eq_mul_div, div_le_iff₀ (by positivity)]
    calc (2 : ℚ) ^ ilog2 n * d ≤ (2 : ℚ) ^ ilog2 n * 2 ^ (ilog2 d + 1) := by
          apply mul_le_mul_of_nonneg_left h2 (by positivity)
      _ ≤ n * 2 ^ (ilog2 d + 1) := by
          apply mul_le_mul_of_nonneg_right h1 (by positivity)

/-- Rounding the scaled quotient to the nearest integer is off by at most half a
unit in the last place. -/
theorem roundStep_err (n d : Nat) (hd : 1 ≤ d) (e : Int) (N D q r m : Nat)
    (hN : N = n * 2 ^ (-e).toNat) (hD : D = d * 2 ^ e.toNat)
    (hq : q = N / D) (hr : r = N % D)
    (hm : m = if 2 * r < D then q else if D < 2 * r then q + 1
      else if q % 2 = 0 then q else q + 1) :
    |(m : ℚ) * (2 : ℚ) ^ e - (n : ℚ) / d| ≤ (2 : ℚ) ^ e / 2 := by
  have hDpos : 0 < D := by rw [hD]; positivity
  have hdiv : D * q + r = N := by rw [hq, hr]; exact Nat.div_add_mod N D
  have hrlt : r < D := by rw [hr]; exact Nat.mod_lt N hDpos
  have hcases : (m = q ∧ 2 * r ≤ D) ∨ (m = q + 1 ∧ D ≤ 2 * r) := by
    rw [hm]
    split_ifs with h1 h2 h3
    · left; exact ⟨rfl, by omega⟩
    · right; exact ⟨rfl, by omega⟩
    · left; exact ⟨rfl, by omega⟩
    · right; exact ⟨rfl, by omega⟩
  have hdq : (0 : ℚ) < d := by exact_mod_cast hd
  have hDq : (0 : ℚ) < D := by exact_mod_cast hDpos
  have hpe : (0 : ℚ) < (2 : ℚ) ^ e := by positivity
  have hval : (n : ℚ) / d = (N : ℚ) / D * (2 : ℚ) ^ e := by
    rw [hN, hD, zpow_two_split e]
    push_cast
    field_simp
    ring
  have hNq : (N : ℚ) = D * q + r := by exact_mod_cast hdiv.symm
  rw [hval, ← sub_mul, abs_mul, abs_of_pos hpe]
  have hND : (N : ℚ) / D = q + r / D := by
    rw [hNq]
    field_simp
    ring
  have ht0 : (0 : ℚ) ≤ (r : ℚ) / D := by positivity
  have hhalf : |(m : ℚ) - (N : ℚ) / D| ≤ 1 / 2 := by
    rw [abs_le, hND]
    rcases hcases with ⟨h1, h2⟩ | ⟨h1, h2⟩
    · have h2q : (2 : ℚ) * r ≤ D := by exact_mod_cast h2
      have ht : (r : ℚ) / D ≤ 1 / 2 := by
        rw [div_le_iff₀ hDq]; linarith
      rw [h1]
      constructor <;> linarith
    · have h2q : (D : ℚ) ≤ 2 * r := by exact_mod_cast h2
      have hrq : (r : ℚ) < D := by exact_mod_cast hrlt
      have ht : 1 / 2 ≤ (r : ℚ) / D := by
        rw [le_div_iff₀ hDq]; linarith
      have ht1 : (r : ℚ) / D ≤ 1 := by
        rw [div_le_iff₀ hDq]; linarith
      rw [h1]
      push_cast
      constructor <;> linarith
  calc |(m : ℚ) - (N : ℚ) / D| * (2 : ℚ) ^ e ≤ 1 / 2 * (2 : ℚ) ^ e :=
        mul_le_mul_of_nonneg_right hhalf hpe.le
    _ = (2 : ℚ) ^ e / 2 := by ring

/-- Error of `roundParts`: half a unit in the last place, where the unit is
`2 ^ (-1074)` or at most `2 ^ (-52)` times the input. -/
theorem roundParts_err (n d : Nat) (hn : 1 ≤ n) (hd : 1 ≤ d) :
    |((roundParts n d).1 : ℚ) * (2 : ℚ) ^ (roundParts n d).2 - (n : ℚ) / d|
        ≤ (2 : ℚ) ^ (roundParts n d).2 / 2 ∧
      ((roundParts n d).2 = -1074 ∨ (2 : ℚ) ^ ((roundParts n d).2 + 52) ≤ (n : ℚ) / d) := by
  constructor
  · exact roundStep_err n d hd _ _ _ _ _ _ rfl rfl rfl rfl rfl
  · have h := exponent_le n d hn hd _ _ rfl rfl
    show max _ (-1074 : Int) = -1074 ∨ (2 : ℚ) ^ (max _ (-1074 : Int) + 52) ≤ _
    rcases max_cases
      ((if d * 2 ^ ((ilog2 n : Int) - (ilog2 d : Int)).toNat
            ≤ n * 2 ^ (-((ilog2 n : Int) - (ilog2 d : Int))).toNat
        then (ilog2 n : Int) - (ilog2 d : Int) else (ilog2 n : Int) - (ilog2 d : Int) - 1) - 52)
      (-1074 : Int) with ⟨h1, _⟩ | ⟨h1, _⟩
    · right
      rw [h1, sub_add_cancel]
      exact h
    · left
      exact h1

/-- The binade exponent chosen by `roundParts` is the exact one: the input lies
below the next power of two. -/
theorem lt_exponent (n d : Nat) (hn : 1 ≤ n) (hd : 1 ≤ d) (k ex : Int)
    (hk : k = (ilog2 n : Int) - (ilog2 d : Int))
    (hex : ex = if d * 2 ^ k.toNat ≤ n * 2 ^ (-k).toNat then k else k - 1) :
    (n : ℚ) / d < (2 : ℚ) ^ (ex + 1) := by
  have hdq : (0 : ℚ) < d := by exact_mod_cast hd
  rw [div_lt_iff₀ hdq]
  split_ifs at hex with hc
  · have h1 : (n : ℚ) < 2 ^ (ilog2 n + 1) := by exact_mod_cast lt_ilog2 n hn
    have h2 : (2 : ℚ) ^ ilog2 d ≤ d := by exact_mod_cast ilog2_le d hd
    have h3 : (2 : ℚ) ^ (k + 1) = (2 : ℚ) ^ (ilog2 n + 1) / (2 : ℚ) ^ ilog2 d := by
      rw [hk, ← zpow_natCast, ← zpow_natCast, ← zpow_sub₀ (by norm_num)]
      congr 1
      push_cast
      ring
    rw [hex, h3, div_mul_eq_mul_div, lt_div_iff₀ (by positivity)]
    calc (n : ℚ) * 2 ^ ilog2 d < 2 ^ (ilog2 n + 1) * 2 ^ ilog2 d := by
          apply mul_lt_mul_of_pos_right h1 (by positivity)
      _ ≤ 2 ^ (ilog2 n + 1) * d := by
          apply mul_le_mul_of_nonneg_left h2 (by positivity)
  · have hlt : ((n * 2 ^ (-k).toNat : Nat) : ℚ) < ((d * 2 ^ k.toNat : Nat) : ℚ) := by
      exact_mod_cast not_le.mp hc
    push_cast at hlt
    rw [hex, sub_add_cancel, zpow_two_split, div_mul_eq_mul_div, lt_div_iff₀ (by positivity)]
    linarith

/-- Rounding a scaled quotient below `2 ^ 53` gives a significand of at most
`2 ^ 53`. -/
theorem roundStep_le (n d : Nat) (hd : 1 ≤ d) (e : Int) (N D q r m : Nat)
    (hN : N = n * 2 ^ (-e).toNat) (hD : D = d * 2 ^ e.toNat)
    (hq : q = N / D)
    (hm : m = if 2 * r < D then q else if D < 2 * r then q + 1
      else if q % 2 = 0 then q else q + 1)
    (hlt : (n : ℚ) / d < (2 : ℚ) ^ (53 : Nat) * (2 : ℚ) ^ e) : m ≤ 2 ^ 53 := by
  have hDpos : 0 < D := by rw [hD]; positivity
  have hdq : (0 : ℚ) < d := by exact_mod_cast hd
  have hDq : (0 : ℚ) < D := by exact_mod_cast hDpos
  have hpe : (0 : ℚ) < (2 : ℚ) ^ e := by positivity
  have hval : (n : ℚ) / d = (N : ℚ) / D * (2 : ℚ) ^ e := by
    rw [hN, hD, zpow_two_split e]
    push_cast
    field_simp
    ring
  rw [hval] at hlt
  have h1 : (N : ℚ) / D < (2 : ℚ) ^ (53 : Nat) := lt_of_mul_lt_mul_right hlt hpe.le
  rw [div_lt_iff₀ hDq] at h1
  have h2 : N < 2 ^ 53 * D := by exact_mod_cast h1
  have h3 : q < 2 ^ 53 := by
    rw [hq]
    exact Nat.div_lt_of_lt_mul (by rw [Nat.mul_comm]; exact h2)
  have h4 : m ≤ q + 1 := by
    rw [hm]
    split_ifs <;> omega
  omega

/-- The result of `roundParts` is a double: its significand has at most 53 bits
(the value `2 ^ 53` stands for a carry into the next binade) and its exponent is
at least the subnormal one. -/
theorem roundParts_representable (n d : Nat) (hn : 1 ≤ n) (hd : 1 ≤ d) :
    (roundParts n d).1 ≤ 2 ^ 53 ∧ -1074 ≤ (roundParts n d).2 := by
  have hupper := lt_exponent n d hn hd _ _ rfl rfl
  have he : -1074 ≤ (roundParts n d).2 := le_max_right _ _
  have he2 : (if d * 2 ^ ((ilog2 n : Int) - (ilog2 d : Int)).toNat
          ≤ n * 2 ^ (-((ilog2 n : Int) - (ilog2 d : Int))).toNat
        then (ilog2 n : Int) - (ilog2 d : Int) else (ilog2 n : Int) - (ilog2 d : Int) - 1) - 52
      ≤ (roundParts n d).2 := le_max_left _ _
  refine ⟨?_, he⟩
  generalize hexdef : (if d * 2 ^ ((ilog2 n : Int) - (ilog2 d : Int)).toNat
          ≤ n * 2 ^ (-((ilog2 n : Int) - (ilog2 d : Int))).toNat
        then (ilog2 n : Int) - (ilog2 d : Int) else (ilog2 n : Int) - (ilog2 d : Int) - 1) = ex
    at hupper he2
  have hdq : (0 : ℚ) < d := by exact_mod_cast hd
  have hscaled : (n : ℚ) / d < (2 : ℚ) ^ (53 : Nat) * (2 : ℚ) ^ (roundParts n d).2 := by
    have h1 : (2 : ℚ) ^ (ex + 1) ≤ (2 : ℚ) ^ ((roundParts n d).2 + 53) :=
      zpow_le_zpow_right₀ (by norm_num) (by omega)
    have h2 : (2 : ℚ) ^ ((roundParts n d).2 + 53)
        = (2 : ℚ) ^ (53 : Nat) * (2 : ℚ) ^ (roundParts n d).2 := by
      rw [zpow_add₀ (by norm_num), mul_comm, zpow_ofNat]
    linarith
  exact roundStep_le n d hd _ _ _ _ _ _ rfl rfl rfl rfl hscaled

/-- Half of the smallest subnormal spacing. -/
theorem half_ulp_min : (2 : ℚ) ^ (-1074 : Int) / 2 = 1 / 2 ^ 1075 := by norm_num

/-- The smallest half spacing is far below one. -/
theorem tiny_le : (1 : ℚ) / 2 ^ 1075 ≤ 1 / 4 := by norm_num

/-- The overflow threshold is twice `2 ^ 1023`. -/
theorem pow_1024 : (2 : ℚ) ^ (1024 : Nat) = 2 ^ 1023 * 2 := by
  rw [← pow_succ]

/-- One more doubling, used for the reciprocal. -/
theorem pow_1023 : (2 : ℚ) ^ 1023 = 2 ^ 1022 * 2 := by
  rw [← pow_succ]

/-- The bound `2 ^ 1023` is at least one. -/
theorem one_le_big : (1 : ℚ) ≤ 2 ^ 1023 := one_le_pow₀ (by norm_num)

/-- Shift of an exponent by the 52 fraction bits. -/
theorem zpow_add52 (e : Int) : (2 : ℚ) ^ (e + 52) = (2 : ℚ) ^ e * 2 ^ 52 := by
  rw [zpow_add₀ (by norm_num), zpow_ofNat]

/-- Rounding a positive rational that is at most `2 ^ 1023` gives a finite,
non-negative double within relative error `2 ^ (-53)` plus `2 ^ (-1075)`. -/
theorem roundNE_err (x : ℚ) (hx : 0 < x) (hmax : x ≤ 2 ^ 1023) :
    ∃ r : ℚ, roundNE x = .fin r ∧ 0 ≤ r ∧ |r - x| ≤ x / 2 ^ 53 + 1 / 2 ^ 1075 := by
  have hnum : 0 < x.num := Rat.num_pos.mpr hx
  have hn : 1 ≤ x.num.natAbs := by omega
  have hd : 1 ≤ x.den := x.den_pos
  have hxq : ((x.num.natAbs : Nat) : ℚ) / (x.den : ℚ) = x := by
    rw [Nat.cast_natAbs, abs_of_pos hnum]
    exact Rat.num_div_den x
  obtain ⟨herr, hexp⟩ := roundParts_err x.num.natAbs x.den hn hd
  rw [hxq] at herr hexp
  have hbound : (2 : ℚ) ^ (roundParts x.num.natAbs x.den).2 / 2 ≤ x / 2 ^ 53 + 1 / 2 ^ 1075 := by
    rcases hexp with h | h
    · rw [h, half_ulp_min]
      have : 0 ≤ x / 2 ^ 53 := by positivity
      linarith
    · rw [zpow_add52] at h
      have h3 : (2 : ℚ) ^ (roundParts x.num.natAbs x.den).2 / 2
          = (2 : ℚ) ^ (roundParts x.num.natAbs x.den).2 * 2 ^ 52 / 2 ^ 53 := by
        field_simp
        ring
      rw [h3]
      have : (2 : ℚ) ^ (roundParts x.num.natAbs x.den).2 * 2 ^ 52 / 2 ^ 53 ≤ x / 2 ^ 53 :=
        div_le_div_of_nonneg_right h (by positivity)
      have : (0 : ℚ) ≤ 1 / 2 ^ 1075 := by positivity
      linarith
  have herr2 := herr.trans hbound
  have hv0 : (0 : ℚ) ≤ ((roundParts x.num.natAbs x.den).1 : ℚ)
      * (2 : ℚ) ^ (roundParts x.num.natAbs x.den).2 :=
    mul_nonneg (Nat.cast_nonneg _) (zpow_nonneg (by norm_num) _)
  have hx53 : x / 2 ^ 53 ≤ x / 2 := by
    apply div_le_div_of_nonneg_left hx.le (by norm_num)
    norm_num
  have hlt : ¬ ((2 : ℚ) ^ (1024 : Nat) ≤ ((roundParts x.num.natAbs x.den).1 : ℚ)
      * (2 : ℚ) ^ (roundParts x.num.natAbs x.den).2) := by
    have h1 := tiny_le
    have h2 := one_le_big
    have h3 := pow_1024
    have := (abs_le.mp herr2).2
    rw [not_le, h3]
    linarith
  refine ⟨((roundParts x.num.natAbs x.den).1 : ℚ)
      * (2 : ℚ) ^ (roundParts x.num.natAbs x.den).2, ?_, hv0, herr2⟩
  unfold roundNE
  rw [if_neg hx.ne']
  simp only
  rw [if_neg hlt, if_neg (not_lt.mpr hx.le)]

/-- Two rationals at distance at most one half have floors at distance at most one. -/
theorem floor_near (p q : ℚ) (h : |p - q| ≤ 1 / 2) : ⌊q⌋ - 1 ≤ ⌊p⌋ ∧ ⌊p⌋ ≤ ⌊q⌋ + 1 := by
  obtain ⟨h1, h2⟩ := abs_le.mp h
  have hq1 : (⌊q⌋ : ℚ) ≤ q := Int.floor_le q
  have hq2 : q < ⌊q⌋ + 1 := Int.lt_floor_add_one q
  constructor
  · apply Int.le_floor.mpr
    push_cast
    linarith
  · have : ⌊p⌋ < ⌊q⌋ + 2 := by
      apply Int.floor_lt.mpr
      push_cast
      linarith
    omega

/-- The double computation `(uint32_t)(T * (1 / I))` for `T ≥ 0`, `I` in the
normal range and `T / I < 2 ^ 32 - 1`: the conversion is defined and its result
is within one of `floor (T / I)`. -/
theorem castU32_mul_div_near (T I : ℚ) (hT : 0 ≤ T) (hI1 : 1 / 2 ^ 1022 ≤ I)
    (hI2 : I ≤ 2 ^ 1022) (hQ : T / I < 2 ^ 32 - 1) :
    ∃ n : Nat, castU32 (F64.mul (.fin T) (F64.div (.fin 1) (.fin I))) = some n ∧
      ⌊T / I⌋ - 1 ≤ (n : Int) ∧ (n : Int) ≤ ⌊T / I⌋ + 1 := by
  have hpos1022 : (0 : ℚ) < 2 ^ 1022 := by positivity
  have hI : 0 < I := lt_of_lt_of_le (by positivity) hI1
  have hinv_lo : 1 / 2 ^ 1022 ≤ 1 / I := one_div_le_one_div_of_le hI hI2
  have hinv_hi : 1 / I ≤ 2 ^ 1023 := by
    have h1 : 1 / I ≤ 2 ^ 1022 := by
      rw [div_le_iff₀ hI]
      have := mul_le_mul_of_nonneg_left hI1 hpos1022.le
      rw [mul_one_div, div_self hpos1022.ne'] at this
      exact this
    have h2 := pow_1023
    linarith
  have hinv_pos : 0 < 1 / I := one_div_pos.mpr hI
  obtain ⟨R, hR, hR0, hRerr⟩ := roundNE_err (1 / I) hinv_pos hinv_hi
  have htiny : (1 : ℚ) / 2 ^ 1075 ≤ 1 / I / 2 ^ 53 := by
    have h1 : (1 : ℚ) / 2 ^ 1075 = 1 / 2 ^ 1022 / 2 ^ 53 := by
      rw [div_div, ← pow_add]
    rw [h1]
    exact div_le_div_of_nonneg_right hinv_lo (by positivity)
  have hRerr2 : |R - 1 / I| ≤ 1 / I / 2 ^ 52 := by
    have : 1 / I / 2 ^ 53 + 1 / I / 2 ^ 53 = 1 / I / 2 ^ 52 := by
      field_simp
      ring
    linarith
  have hdiv : F64.div (.fin 1) (.fin I) = .fin R := by
    simp only [F64.div]
    rw [if_neg hI.ne', hR]
  rw [hdiv]
  simp only [F64.mul]
  have hQ0 : 0 ≤ T / I := div_nonneg hT hI.le
  rcases eq_or_lt_of_le hT with hT0 | hTpos
  · refine ⟨0, ?_, ?_, ?_⟩
    · rw [← hT0, zero_mul]
      simp [roundNE, castU32]
    · rw [← hT0, zero_div]; simp
    · rw [← hT0, zero_div]; simp
  · obtain ⟨hR1, hR2⟩ := abs_le.mp hRerr2
    have h52 : (1 : ℚ) / I / 2 ^ 52 ≤ 1 / I / 2 := by
      apply div_le_div_of_nonneg_left hinv_pos.le (by norm_num)
      norm_num
    have hRpos : 0 < R := by linarith
    have hTR : 0 < T * R := mul_pos hTpos hRpos
    have hTI : T * (1 / I) = T / I := by ring
    have hTRerr : |T * R - T / I| ≤ T / I / 2 ^ 52 := by
      have : T * R - T / I = T * (R - 1 / I) := by ring
      rw [this, abs_mul, abs_of_pos hTpos]
      calc T * |R - 1 / I| ≤ T * (1 / I / 2 ^ 52) :=
            mul_le_mul_of_nonneg_left hRerr2 hTpos.le
        _ = T / I / 2 ^ 52 := by ring
    obtain ⟨hTR1, hTR2⟩ := abs_le.mp hTRerr
    have hQ52 : T / I / 2 ^ 52 ≤ 2 ^ 32 / 2 ^ 52 :=
      div_le_div_of_nonneg_right (by linarith) (by positivity)
    have hTRle : T * R ≤ 2 ^ 33 := by
      have : (2 : ℚ) ^ 32 / 2 ^ 52 ≤ 1 := by norm_num
      have : (2 : ℚ) ^ 33 = 2 ^ 32 * 2 := by norm_num
      linarith
    have hTRmax : T * R ≤ 2 ^ 1023 := by
      have : (2 : ℚ) ^ 33 ≤ 2 ^ 1023 := pow_le_pow_right₀ (by norm_num) (by norm_num)
      linarith
    obtain ⟨P, hP, hP0, hPerr⟩ := roundNE_err (T * R) hTR hTRmax
    have hP53 : T * R / 2 ^ 53 ≤ 2 ^ 33 / 2 ^ 53 :=
      div_le_div_of_nonneg_right hTRle (by positivity)
    have hclose : |P - T / I| ≤ 1 / 2 := by
      obtain ⟨hP1, hP2⟩ := abs_le.mp hPerr
      have ht := tiny_le
      have e1 : (2 : ℚ) ^ 33 / 2 ^ 53 ≤ 1 / 16 := by norm_num
      have e2 : (2 : ℚ) ^ 32 / 2 ^ 52 ≤ 1 / 16 := by norm_num
      rw [abs_le]
      constructor <;> linarith
    obtain ⟨hf1, hf2⟩ := floor_near P (T / I) hclose
    have hfloor0 : 0 ≤ ⌊P⌋ := Int.floor_nonneg.mpr hP0
    have hfloorlt : ⌊P⌋ < 2 ^ 32 := by
      apply Int.floor_lt.mpr
      obtain ⟨_, hc2⟩ := abs_le.mp hclose
      push_cast
      linarith
    refine ⟨⌊P⌋.toNat, ?_, ?_, ?_⟩
    · rw [hP]
      unfold castU32
      simp only [if_pos hP0]
      rw [if_pos ⟨hfloor0, hfloorlt⟩]
    · rw [Int.toNat_of_nonneg hfloor0]; exact hf1
    · rw [Int.toNat_of_nonneg hfloor0]; exact hf2

/-! ## The command line -/
theorem store_frame (it : CommandLine.Item) (hmem : it ∈ MeshModel.commandLine)
    (value : String) (self s : MeshModel) (h : it.store value self = some s) : Frame s self := by
  simp only [MeshModel.commandLine, CommandLine.AddDouble,
    CommandLine.AddUnsigned, CommandLine.AddString, List.nil_append, List.cons_append,
    List.mem_cons, List.mem_singleton, List.not_mem_nil, or_false] at hmem
  rcases hmem with rfl | rfl | rfl | rfl | rfl | rfl | rfl | rfl | rfl <;>
    simp only [Option.map_eq_some', Option.some.injEq] at h <;>
    (obtain ⟨v, _, rfl⟩ := h; simp [Frame])

/-- Handling one argument writes none of the framed members. -/
theorem HandleArgument_frame (name value : String) (self s : MeshModel)
    (h : CommandLine.HandleArgument MeshModel.commandLine name value self = .ok s) :
    Frame s self := by
  unfold CommandLine.HandleArgument at h
  split at h
  · simp at h
  · rename_i it hf
    split at h
    · simp at h
    · rename_i s1 hs
      have hmem := List.mem_of_find?_eq_some hf
      simp only [Except.ok.injEq] at h
      subst h
      exact store_frame it hmem value self s1 hs

/-- Parsing a command line writes none of the framed members. -/
theorem ParseArgs_frame (args : List String) : ∀ (self s : MeshModel),
    CommandLine.ParseArgs MeshModel.commandLine args self = .ok s → Frame s self := by
  induction args with
  | nil =>
    intro self s h
    simp only [CommandLine.ParseArgs, Except.ok.injEq] at h
    subst h
    simp [Frame]
  | cons tok rest ih =>
    intro self s h
    unfold CommandLine.ParseArgs at h
    split at h
    · simp at h
    · rename_i name value _
      split at h
      · simp at h
      · rename_i s1 h1
        have f1 := HandleArgument_frame name value self s1 h1
        have f2 := ih s1 s h
        simp only [Frame] at f1 f2 ⊢
        obtain ⟨a1, a2, a3, a4, a5, a6⟩ := f1
        obtain ⟨b1, b2, b3, b4, b5, b6⟩ := f2
        exact ⟨b1.trans a1, b2.trans a2, b3.trans a3, b4.trans a4, b5.trans a5, b6.trans a6⟩

/-- Every configuration the program runs with has the 3 x 3 grid and empty containers. -/
theorem Configured_frame (self : MeshModel) (h : self.Configured) :
    self.m_xSize = 3 ∧ self.m_ySize = 3 ∧ self.nodes = [] ∧ self.meshDevices = [] ∧
      self.interfaces = [] := by
  obtain ⟨argv, h⟩ := h
  have f := ParseArgs_frame argv.tail MeshModel.new self h
  obtain ⟨a1, a2, a3, a4, a5, _⟩ := f
  exact ⟨a1, a2, a3, a4, a5⟩

/-- The device set of a non-empty node list starts with a device of its first node. -/
theorem Install_cons (h : MeshHelper) (n : Nat) (ns : List Nat) :
    ∃ rest, h.Install (n :: ns) = ⟨n, 0⟩ :: rest := by
  have hk : ∃ k, h.entriesPerNode = k + 1 := by
    unfold MeshHelper.entriesPerNode
    split_ifs with hc
    · exact ⟨h.nInterfaces - 1, by omega⟩
    · exact ⟨0, rfl⟩
  obtain ⟨k, hk⟩ := hk
  simp only [MeshHelper.Install, List.map_cons, List.flatten_cons, hk, List.range_succ_eq_map,
    List.cons_append]
  exact ⟨_, rfl⟩

/-- The first device gets the first address of the network. -/
theorem Assign_cons (a : Ipv4AddressHelper) (d : NetDevice) (ds : List NetDevice) :
    ∃ rest, a.Assign (d :: ds) = (d, ⟨a.network, a.mask, 1⟩) :: rest := by
  simp only [Ipv4AddressHelper.Assign, List.length_cons, List.range_succ_eq_map, List.zip_cons_cons,
    List.map_cons]
  exact ⟨_, rfl⟩

/-- Creating 9 nodes in an empty container gives the nodes 0 to 8. -/
theorem gridNodes_eq : NodeContainer.Create [] 9 = gridNodes := by decide

/-- The two branches of `CreateNodes` on the root address, as one record. -/
theorem stackInstaller_eq (self : MeshModel) (a : Mac48Address) :
    (if (!a.IsBroadcast) = true then
        MeshHelper.Default.SetStackInstaller self.m_stack [("Root", .Mac48AddressValue a)]
      else MeshHelper.Default.SetStackInstaller self.m_stack []) =
      { MeshHelper.Default with stack := some ⟨self.m_stack,
          if a = Mac48Address.GetBroadcast then [] else [("Root", .Mac48AddressValue a)]⟩ } := by
  by_cases hb : a = Mac48Address.GetBroadcast
  · simp [Mac48Address.IsBroadcast, hb, MeshHelper.SetStackInstaller]
  · simp [Mac48Address.IsBroadcast, hb, MeshHelper.SetStackInstaller]

/-- Closed form of `CreateNodes` on a 3 x 3 grid with a well-formed root. -/
theorem CreateNodes_ok (self : MeshModel) (tr : List Call) (a : Mac48Address)
    (hx : self.m_xSize = 3) (hy : self.m_ySize = 3) (hn : self.nodes = [])
    (ha : Mac48Address.ofString self.m_root = some a) :
    self.CreateNodes tr = .ok ({ self with
        nodes := gridNodes
        mesh := self.meshFor a
        meshDevices := (self.meshFor a).Install gridNodes },
      tr ++ [.NodesCreate 9, .WifiChannelCreate, .MeshInstall (self.meshFor a) gridNodes,
        .MobilityInstall ⟨some positionAllocator, some mobilityModel⟩ gridNodes]) := by
  have h9 : toUint32 (3 * 3) = 9 := by decide
  have hmesh := stackInstaller_eq self a
  unfold MeshModel.CreateNodes
  simp only [hx, hy, hn, ha, h9, gridNodes_eq, hmesh]
  simp [MeshModel.meshFor, MeshHelper.SetSpreadInterfaceChannels, MeshHelper.SetMacType,
    MeshHelper.SetNumberOfInterfaces, MeshHelper.Default]

/-- Closed form of `InstallInternetStack`. -/
theorem InstallInternetStack_ok (self : MeshModel) (tr : List Call) :
    self.InstallInternetStack tr = .ok ({ self with
        interfaces := addressBase.Assign self.meshDevices },
      tr ++ [.InternetStackInstall self.nodes, .AddressAssign addressBase self.meshDevices]) := by
  simp [MeshModel.InstallInternetStack, addressBase]

/-- Closed form of `InstallApplication` after the two earlier phases. -/
theorem InstallApplication_ok (self : MeshModel) (tr : List Call) (n : Nat) (mesh : MeshHelper)
    (hx : self.m_xSize = 3) (hy : self.m_ySize = 3) (hn : self.nodes = gridNodes)
    (hi : self.interfaces = addressBase.Assign (mesh.Install gridNodes))
    (hm : self.maxPackets = some n) :
    self.InstallApplication tr = .ok (self,
      tr ++ [.EchoServerInstall ⟨9⟩ 0,
        .AppStart .serverApps (Seconds (F64.lit 0)),
        .AppStop .serverApps (Seconds self.m_totalTime),
        .EchoClientInstall (self.clientFor n) 8,
        .AppStart .clientApps (Seconds (F64.lit 0)),
        .AppStop .clientApps (Seconds self.m_totalTime)]) := by
  have h8 : toUint32 (3 * 3 - 1) = 8 := by decide
  obtain ⟨r1, hr1⟩ := Install_cons mesh 0 [1, 2, 3, 4, 5, 6, 7, 8]
  obtain ⟨r2, hr2⟩ := Assign_cons addressBase ⟨0, 0⟩ r1
  have hi0 : self.interfaces[0]? = some (⟨0, 0⟩, ⟨"10.1.1.0", "255.255.255.0", 1⟩) := by
    rw [hi]
    show (addressBase.Assign (mesh.Install (0 :: [1, 2, 3, 4, 5, 6, 7, 8])))[0]? = _
    rw [hr1, hr2]
    simp [addressBase]
  unfold MeshModel.InstallApplication
  simp only [hx, hy, hn, hm, hi0, h8]
  simp [gridNodes, MeshModel.clientFor, UdpEchoClientHelper.SetAttribute]

/-- Closed form of a completed `Run`. -/
theorem Run_ok (self : MeshModel) (tr : List Call) (a : Mac48Address) (n : Nat)
    (hx : self.m_xSize = 3) (hy : self.m_ySize = 3) (hn : self.nodes = [])
    (ha : Mac48Address.ofString self.m_root = some a) (hm : self.maxPackets = some n) :
    self.Run tr = .ok (0, { self with
        nodes := gridNodes
        mesh := self.meshFor a
        meshDevices := (self.meshFor a).Install gridNodes
        interfaces := addressBase.Assign ((self.meshFor a).Install gridNodes) },
      tr ++ self.runCalls a n) := by
  unfold MeshModel.Run
  rw [CreateNodes_ok self tr a hx hy hn ha]
  simp only
  rw [InstallInternetStack_ok]
  simp only
  have key := InstallApplication_ok
    ({ self with
        nodes := gridNodes
        mesh := self.meshFor a
        meshDevices := (self.meshFor a).Install gridNodes
        interfaces := addressBase.Assign ((self.meshFor a).Install gridNodes) } : MeshModel)
    (tr ++ [.NodesCreate 9, .WifiChannelCreate, .MeshInstall (self.meshFor a) gridNodes,
        .MobilityInstall ⟨some positionAllocator, some mobilityModel⟩ gridNodes] ++
      [.InternetStackInstall gridNodes,
        .AddressAssign addressBase ((self.meshFor a).Install gridNodes)])
    n (self.meshFor a) hx hy rfl rfl hm
  rw [key]
  simp [MeshModel.runCalls, MeshModel.clientFor]

/-! ## `Configure` against the per-option description -/

/-- An argument `--name=value` is split into its name and its value. -/
theorem lexArgument_render (a : Opt × String) :
    lexArgument (Opt.render a) = some (a.1.name, a.2) := by
  obtain ⟨o, v⟩ := a
  cases o <;> simp [lexArgument, Opt.render, Opt.name, List.takeWhile, List.dropWhile]

/-- Handling a recognised option with a well-formed value stores the parsed value. -/
theorem HandleArgument_render (o : Opt) (v : String) (self : MeshModel)
    (hw : o.wellFormed v = true) :
    CommandLine.HandleArgument MeshModel.commandLine o.name v self =
      .ok (self.configureSpec [(o, v)]) := by
  cases o <;>
    simp only [Opt.wellFormed, Option.isSome_iff_exists] at hw <;>
    (try obtain ⟨d, hd⟩ := hw) <;>
    simp [CommandLine.HandleArgument, MeshModel.commandLine, CommandLine.AddDouble,
      CommandLine.AddUnsigned, CommandLine.AddString, Opt.name, List.find?,
      MeshModel.configureSpec, lastValue, *]

/-- The last value of an option occurs on the command line. -/
theorem lastValue_mem (o : Opt) (as : List (Opt × String)) (w : String)
    (h : lastValue o as = some w) : (o, w) ∈ as := by
  induction as with
  | nil => simp [lastValue] at h
  | cons a rest ih =>
    unfold lastValue at h
    split at h
    · rename_i w1 h1
      simp only [Option.some.injEq] at h
      subst h
      exact List.mem_cons_of_mem _ (ih h1)
    · split_ifs at h with ha
      simp only [Option.some.injEq] at h
      subst h
      subst ha
      exact List.mem_cons_self _ _

/-- A parsed field after one more leading option. -/
theorem field_cons {α : Type} (parse : String → Option α) (o : Opt) (a : Opt × String)
    (rest : List (Opt × String)) (b : α)
    (hwf : ∀ w, lastValue o rest = some w → (parse w).isSome = true) :
    ((lastValue o rest).bind parse).getD (((lastValue o [a]).bind parse).getD b) =
      ((lastValue o (a :: rest)).bind parse).getD b := by
  cases h : lastValue o rest with
  | none => simp [lastValue, h]
  | some w =>
    obtain ⟨d, hd⟩ := Option.isSome_iff_exists.mp (hwf w h)
    simp [lastValue, h, hd]

/-- A text field after one more leading option. -/
theorem text_cons (o : Opt) (a : Opt × String) (rest : List (Opt × String)) (b : String) :
    (lastValue o rest).getD ((lastValue o [a]).getD b) = (lastValue o (a :: rest)).getD b := by
  cases h : lastValue o rest with
  | none => simp [lastValue, h]
  | some w => simp [lastValue, h]

/-- The empty command line prescribes the base configuration. -/
theorem configureSpec_nil (base : MeshModel) : base.configureSpec [] = base := by
  simp [MeshModel.configureSpec, lastValue]

/-- The prescription for a command line, one leading option at a time. -/
theorem configureSpec_cons (base : MeshModel) (a : Opt × String) (rest : List (Opt × String))
    (hw : ∀ b ∈ rest, b.1.wellFormed b.2 = true) :
    (base.configureSpec [a]).configureSpec rest = base.configureSpec (a :: rest) := by
  have wf : ∀ (o : Opt) (w : String), lastValue o rest = some w → o.wellFormed w = true :=
    fun o w h => hw (o, w) (lastValue_mem o rest w h)
  have e1 := field_cons parseDouble .x a rest base.m_x (fun w h => wf .x w h)
  have e2 := field_cons parseDouble .y a rest base.m_y (fun w h => wf .y w h)
  have e3 := field_cons parseDouble .start a rest base.m_randomStart (fun w h => wf .start w h)
  have e4 := field_cons parseDouble .time a rest base.m_totalTime (fun w h => wf .time w h)
  have e5 := field_cons parseDouble .packetInterval a rest base.m_packetInterval
    (fun w h => wf .packetInterval w h)
  have e6 := field_cons (parseUnsigned 16) .packetSize a rest base.m_packetSize
    (fun w h => wf .packetSize w h)
  have e7 := field_cons (parseUnsigned 32) .interfaces a rest base.m_nIfaces
    (fun w h => wf .interfaces w h)
  have e8 := text_cons .stack a rest base.m_stack
  have e9 := text_cons .root a rest base.m_root
  simp only [MeshModel.configureSpec]
  rw [e1, e2, e3, e4, e5, e6, e7, e8, e9]

/-- Parsing recognised options with well-formed values gives the prescribed configuration. -/
theorem ParseArgs_render (as : List (Opt × String)) : ∀ self : MeshModel,
    (∀ a ∈ as, a.1.wellFormed a.2 = true) →
    CommandLine.ParseArgs MeshModel.commandLine (as.map Opt.render) self =
      .ok (self.configureSpec as) := by
  induction as with
  | nil =>
    intro self _
    simp [CommandLine.ParseArgs, configureSpec_nil]
  | cons a rest ih =>
    intro self hw
    have ha : a.1.wellFormed a.2 = true := hw a (List.mem_cons_self _ _)
    have hrest : ∀ b ∈ rest, b.1.wellFormed b.2 = true :=
      fun b hb => hw b (List.mem_cons_of_mem _ hb)
    rw [List.map_cons]
    unfold CommandLine.ParseArgs
    rw [lexArgument_render]
    simp only
    rw [HandleArgument_render a.1 a.2 self ha]
    simp only
    rw [ih _ hrest, configureSpec_cons self a rest hrest]

/-! ## `Report` and aborted runs -/

/-- The loop of `Report` appends the devices from position `i` on to the visited ones. -/
theorem Report_loop_eq (devices : List NetDevice) (k : Nat) : ∀ (i : Nat) (hi : i ≤ devices.length)
    (visited : List NetDevice), devices.length - i = k →
    MeshModel.Report.loop devices i hi visited = visited ++ devices.drop i := by
  induction k with
  | zero =>
    intro i hi visited hk
    have : i = devices.length := by omega
    unfold MeshModel.Report.loop
    simp [this]
  | succ k ih =>
    intro i hi visited hk
    have hlt : i < devices.length := by omega
    unfold MeshModel.Report.loop
    rw [dif_pos (by omega)]
    rw [ih (i + 1) (by omega) _ (by omega)]
    rw [List.append_assoc]
    congr 1
    rw [List.singleton_append]
    exact (List.drop_eq_getElem_cons hlt).symm

/-- The method `Report` visits the device set in order and changes nothing. -/
theorem Report_eq (self : MeshModel) : self.Report = (self, self.meshDevices) := by
  unfold MeshModel.Report
  rw [Report_loop_eq self.meshDevices _ 0 (Nat.zero_le _) [] rfl]
  simp

/-- A malformed root stops `Run` in `CreateNodes`, after the nodes and the channel. -/
theorem Run_abort_root (self : MeshModel) (tr : List Call)
    (hx : self.m_xSize = 3) (hy : self.m_ySize = 3)
    (ha : Mac48Address.ofString self.m_root = none) :
    self.Run tr = .error ⟨.invalidAddress, tr ++ [.NodesCreate 9, .WifiChannelCreate]⟩ := by
  have h9 : toUint32 9 = 9 := by decide
  unfold MeshModel.Run MeshModel.CreateNodes
  simp [hx, hy, ha, h9]

/-- An undefined packet count stops `Run` in `InstallApplication`, after the server. -/
theorem Run_abort_count (self : MeshModel) (tr : List Call) (a : Mac48Address)
    (hx : self.m_xSize = 3) (hy : self.m_ySize = 3) (hn : self.nodes = [])
    (ha : Mac48Address.ofString self.m_root = some a) (hm : self.maxPackets = none) :
    self.Run tr = .error ⟨.undefinedConversion,
      tr ++ [.NodesCreate 9, .WifiChannelCreate, .MeshInstall (self.meshFor a) gridNodes,
        .MobilityInstall ⟨some positionAllocator, some mobilityModel⟩ gridNodes,
        .InternetStackInstall gridNodes,
        .AddressAssign addressBase ((self.meshFor a).Install gridNodes),
        .EchoServerInstall ⟨9⟩ 0,
        .AppStart .serverApps (Seconds (F64.lit 0)),
        .AppStop .serverApps (Seconds self.m_totalTime)]⟩ := by
  obtain ⟨r1, hr1⟩ := Install_cons (self.meshFor a) 0 [1, 2, 3, 4, 5, 6, 7, 8]
  obtain ⟨r2, hr2⟩ := Assign_cons addressBase ⟨0, 0⟩ r1
  have hdev : (self.meshFor a).Install gridNodes = ⟨0, 0⟩ :: r1 := hr1
  have hi0 : (addressBase.Assign ((self.meshFor a).Install gridNodes))[0]? =
      some (⟨0, 0⟩, ⟨"10.1.1.0", "255.255.255.0", 1⟩) := by
    rw [hdev, hr2]
    simp [addressBase]
  have hm2 : MeshModel.maxPackets
      ({ self with
        nodes := gridNodes
        mesh := self.meshFor a
        meshDevices := (self.meshFor a).Install gridNodes
        interfaces := addressBase.Assign ((self.meshFor a).Install gridNodes) } : MeshModel)
      = none := hm
  unfold MeshModel.Run
  rw [CreateNodes_ok self tr a hx hy hn ha]
  simp only
  rw [InstallInternetStack_ok]
  simp only
  unfold MeshModel.InstallApplication
  simp only [hi0, hm2]
  simp [gridNodes]

/-- The library calls of `Run` from a configuration with a 3 x 3 grid and no
nodes yet: a completed run, an abort on a malformed root, or an abort on an
undefined packet count. -/
theorem Run_trace_cases (self : MeshModel) (tr : List Call)
    (hx : self.m_xSize = 3) (hy : self.m_ySize = 3) (hn : self.nodes = []) :
    (∃ a n s, self.Run tr = .ok (0, s, tr ++ self.runCalls a n)) ∨
      (∃ e, self.Run tr = .error ⟨e, tr ++ [.NodesCreate 9, .WifiChannelCreate]⟩) ∨
      (∃ a e, self.Run tr = .error ⟨e, tr ++ (self.runCalls a 0).take 9⟩) := by
  cases ha : Mac48Address.ofString self.m_root with
  | none => exact Or.inr (Or.inl ⟨_, Run_abort_root self tr hx hy ha⟩)
  | some a =>
    cases hm : self.maxPackets with
    | none => exact Or.inr (Or.inr ⟨a, _, Run_abort_count self tr a hx hy hn ha hm⟩)
    | some n => exact Or.inl ⟨a, n, _, Run_ok self tr a n hx hy hn ha hm⟩

/-- The device set of the grid is never empty. -/
theorem Install_gridNodes_ne_nil (h : MeshHelper) : h.Install gridNodes ≠ [] := by
  obtain ⟨r1, hr1⟩ := Install_cons h 0 [1, 2, 3, 4, 5, 6, 7, 8]
  have hdev : h.Install gridNodes = ⟨0, 0⟩ :: r1 := hr1
  rw [hdev]
  exact List.cons_ne_nil _ _

/-- The program stops with the log call alone when `Configure` fails. -/
theorem main_error (argv : List String) (e : Error)
    (h : MeshModel.new.Configure argv = .error e) :
    main argv = .error
      ⟨e, [.LogComponentEnable "UdpEchoClientApplication" "LOG_LEVEL_INFO"]⟩ := by
  unfold main
  simp only [h]

/-- The program runs the configured object after the log call. -/
theorem main_ok (argv : List String) (self : MeshModel)
    (h : MeshModel.new.Configure argv = .ok self) :
    main argv = self.Run [.LogComponentEnable "UdpEchoClientApplication" "LOG_LEVEL_INFO"] := by
  unfold main
  simp only [h]

/-! ## The claims -/

/-! ### The packet count -/

/-- The literal `0.0`. -/
theorem lit_zero : F64.lit 0 = .fin 0 := by decide!

/-- A completed `InstallApplication` hands the packet count to the echo client. -/
theorem InstallApplication_hands (self s : MeshModel) (tr tr2 : List Call)
    (h : self.InstallApplication tr = .ok (s, tr2)) :
    ∃ n client node, self.maxPackets = some n ∧ Call.EchoClientInstall client node ∈ tr2 ∧
      ("MaxPackets", AttributeValue.UintegerValue n) ∈ client.attrs := by
  unfold MeshModel.InstallApplication at h
  split at h
  · simp at h
  · split at h
    · simp at h
    · split at h
      · simp at h
      · rename_i n hn
        split at h
        · simp at h
        · simp only [Except.ok.injEq, Prod.mk.injEq] at h
          obtain ⟨_, h2⟩ := h
          subst h2
          refine ⟨n, _, _, hn, List.mem_append_left _ (List.mem_append_left _
            (List.mem_append_right _ (List.mem_singleton.mpr rfl))), ?_⟩
          simp [UdpEchoClientHelper.SetAttribute]

/-- C1 (as amended): for a total run time `T ≥ 0` and a packet interval `I` in
the normal range of doubles with `T / I < 2 ^ 32 - 1`, the packet count
`(uint32_t)(m_totalTime*(1/m_packetInterval))` is defined and lies within one of
`floor (T / I)`, and it is the `MaxPackets` value `InstallApplication` hands to
the echo client; with `--time=5.0 --packet-interval=0.1` the client gets 50. -/
theorem maxPackets_near_floor (self : MeshModel) (T I : ℚ)
    (hT : self.m_totalTime = .fin T) (hI : self.m_packetInterval = .fin I)
    (hT0 : 0 ≤ T) (hI1 : 1 / 2 ^ 1022 ≤ I) (hI2 : I ≤ 2 ^ 1022) (hQ : T / I < 2 ^ 32 - 1) :
    (∃ n : Nat, self.maxPackets = some n ∧
        ⌊T / I⌋ - 1 ≤ (n : Int) ∧ (n : Int) ≤ ⌊T / I⌋ + 1 ∧
        ∀ (s : MeshModel) (tr tr2 : List Call), self.InstallApplication tr = .ok (s, tr2) →
          ∃ client node, Call.EchoClientInstall client node ∈ tr2 ∧
            ("MaxPackets", AttributeValue.UintegerValue n) ∈ client.attrs) ∧
      clientAttribute "MaxPackets"
          (traceOf (main ["mesh_model", "--time=5.0", "--packet-interval=0.1"])) =
        some (.UintegerValue 50) := by
  constructor
  · obtain ⟨n, hn, h1, h2⟩ := castU32_mul_div_near T I hT0 hI1 hI2 hQ
    have hm : self.maxPackets = some n := by
      unfold MeshModel.maxPackets
      rw [hT, hI]
      exact hn
    refine ⟨n, hm, h1, h2, ?_⟩
    intro s tr tr2 h
    obtain ⟨n2, client, node, hn2, hc, ha⟩ := InstallApplication_hands self s tr tr2 h
    rw [hm] at hn2
    simp only [Option.some.injEq] at hn2
    subst hn2
    exact ⟨client, node, hc, ha⟩
  · decide!

/-- C1, the amended claim at the constructor's defaults (T = 5.0, I the double nearest 0.1). -/
theorem maxPackets_near_floor_witness :
    (∃ n : Nat, MeshModel.new.maxPackets = some n ∧
        ⌊(5 : ℚ) / (3602879701896397 / 36028797018963968)⌋ - 1 ≤ (n : Int) ∧
        (n : Int) ≤ ⌊(5 : ℚ) / (3602879701896397 / 36028797018963968)⌋ + 1 ∧
        ∀ (s : MeshModel) (tr tr2 : List Call),
          MeshModel.new.InstallApplication tr = .ok (s, tr2) →
          ∃ client node, Call.EchoClientInstall client node ∈ tr2 ∧
            ("MaxPackets", AttributeValue.UintegerValue n) ∈ client.attrs) ∧
      clientAttribute "MaxPackets"
          (traceOf (main ["mesh_model", "--time=5.0", "--packet-interval=0.1"])) =
        some (.UintegerValue 50) :=
  maxPackets_near_floor MeshModel.new 5 (3602879701896397 / 36028797018963968)
    (by decide!) (by decide!) (by decide!) (by decide!) (by decide!) (by decide!)

/-- C1, counterexample: with `--time=49 --packet-interval=49` the echo client is
handed `MaxPackets = 0`, while `floor (49 / 49) = 1`. -/
theorem maxPackets_counterexample :
    clientAttribute "MaxPackets"
        (traceOf (main ["mesh_model", "--time=49", "--packet-interval=49"])) =
      some (.UintegerValue 0) ∧ ⌊(49 : ℚ) / 49⌋ = 1 := by
  constructor
  · decide!
  · norm_num

/-! ### The mesh root -/

/-- C2: when the configured root text is a well-formed MAC literal denoting the
address `a`, `CreateNodes` completes and installs the mesh stack with the chosen
stack name; the installer carries no `Root` attribute if and only if `a` is the
broadcast address, which the text `ff:ff:ff:ff:ff:ff` denotes, and for every
other address it carries exactly the attribute `Root = a`. -/
theorem CreateNodes_root_attribute (self : MeshModel) (tr : List Call) (a : Mac48Address)
    (ha : Mac48Address.ofString self.m_root = some a) :
    (∃ s tr2 attrs, self.CreateNodes tr = .ok (s, tr2) ∧
        s.mesh.stack = some ⟨self.m_stack, attrs⟩ ∧
        Call.MeshInstall s.mesh s.nodes ∈ tr2 ∧
        ((∀ v, ("Root", v) ∉ attrs) ↔ a = Mac48Address.GetBroadcast) ∧
        (a = Mac48Address.GetBroadcast → attrs = []) ∧
        (a ≠ Mac48Address.GetBroadcast → attrs = [("Root", .Mac48AddressValue a)])) ∧
      Mac48Address.ofString "ff:ff:ff:ff:ff:ff" = some Mac48Address.GetBroadcast := by
  refine ⟨?_, by decide⟩
  have hmesh := stackInstaller_eq self a
  unfold MeshModel.CreateNodes
  simp only [ha, hmesh]
  refine ⟨_, _, if a = Mac48Address.GetBroadcast then [] else [("Root", .Mac48AddressValue a)],
    rfl, ?_, ?_, ?_, ?_, ?_⟩
  · simp [MeshHelper.SetSpreadInterfaceChannels, MeshHelper.SetMacType,
      MeshHelper.SetNumberOfInterfaces]
  · simp
  · by_cases hb : a = Mac48Address.GetBroadcast
    · simp [hb]
    · simp [hb]
  · intro hb; simp [hb]
  · intro hb; simp [hb]

/-- C2 at the constructor's defaults, whose root is the broadcast address. -/
theorem CreateNodes_root_attribute_witness :
    (∃ s tr2 attrs, MeshModel.new.CreateNodes [] = .ok (s, tr2) ∧
        s.mesh.stack = some ⟨MeshModel.new.m_stack, attrs⟩ ∧
        Call.MeshInstall s.mesh s.nodes ∈ tr2 ∧
        ((∀ v, ("Root", v) ∉ attrs) ↔ Mac48Address.GetBroadcast = Mac48Address.GetBroadcast) ∧
        (Mac48Address.GetBroadcast = Mac48Address.GetBroadcast → attrs = []) ∧
        (Mac48Address.GetBroadcast ≠ Mac48Address.GetBroadcast →
          attrs = [("Root", .Mac48AddressValue Mac48Address.GetBroadcast)])) ∧
      Mac48Address.ofString "ff:ff:ff:ff:ff:ff" = some Mac48Address.GetBroadcast :=
  CreateNodes_root_attribute MeshModel.new [] Mac48Address.GetBroadcast (by decide)

/-! ### The command line -/

/-- C3: on a command line made of the program name and recognised options with
well-formed values, `Configure` returns the default configuration (x = 100,
y = 100, start = 0.1, time = 5.0, packet interval = 0.1, packet size = 1024,
interfaces = 1, stack = ns3::Dot11sStack, root = ff:ff:ff:ff:ff:ff, grid 3 x 3)
with each field named on the command line replaced by the parsed value of its
last occurrence; every field not named, the grid included, keeps its default. -/
theorem Configure_refines_spec (prog : String) (as : List (Opt × String))
    (hw : ∀ a ∈ as, a.1.wellFormed a.2 = true) :
    MeshModel.new.Configure (prog :: as.map Opt.render) =
        .ok (MeshModel.new.configureSpec as) ∧
      (MeshModel.new.configureSpec as).m_xSize = 3 ∧
      (MeshModel.new.configureSpec as).m_ySize = 3 ∧
      MeshModel.new.m_x = .fin 100 ∧ MeshModel.new.m_y = .fin 100 ∧
      MeshModel.new.m_randomStart = F64.lit (1 / 10) ∧ MeshModel.new.m_totalTime = .fin 5 ∧
      MeshModel.new.m_packetInterval = F64.lit (1 / 10) ∧ MeshModel.new.m_packetSize = 1024 ∧
      MeshModel.new.m_nIfaces = 1 ∧ MeshModel.new.m_stack = "ns3::Dot11sStack" ∧
      MeshModel.new.m_root = "ff:ff:ff:ff:ff:ff" := by
  refine ⟨?_, rfl, rfl, rfl, rfl, rfl, by decide!, rfl, rfl, rfl, rfl, rfl⟩
  unfold MeshModel.Configure CommandLine.Parse
  exact ParseArgs_render as MeshModel.new hw

/-- C3 at the command line `--x=50 --root=00:00:00:00:00:01 --x=7.5`. -/
theorem Configure_refines_spec_witness :
    MeshModel.new.Configure
        ("mesh_model" :: [(Opt.x, "50"), (Opt.root, "00:00:00:00:00:01"), (Opt.x, "7.5")].map
          Opt.render) =
        .ok (MeshModel.new.configureSpec
          [(Opt.x, "50"), (Opt.root, "00:00:00:00:00:01"), (Opt.x, "7.5")]) ∧
      (MeshModel.new.configureSpec
        [(Opt.x, "50"), (Opt.root, "00:00:00:00:00:01"), (Opt.x, "7.5")]).m_xSize = 3 ∧
      (MeshModel.new.configureSpec
        [(Opt.x, "50"), (Opt.root, "00:00:00:00:00:01"), (Opt.x, "7.5")]).m_ySize = 3 ∧
      MeshModel.new.m_x = .fin 100 ∧ MeshModel.new.m_y = .fin 100 ∧
      MeshModel.new.m_randomStart = F64.lit (1 / 10) ∧ MeshModel.new.m_totalTime = .fin 5 ∧
      MeshModel.new.m_packetInterval = F64.lit (1 / 10) ∧ MeshModel.new.m_packetSize = 1024 ∧
      MeshModel.new.m_nIfaces = 1 ∧ MeshModel.new.m_stack = "ns3::Dot11sStack" ∧
      MeshModel.new.m_root = "ff:ff:ff:ff:ff:ff" :=
  Configure_refines_spec "mesh_model"
    [(Opt.x, "50"), (Opt.root, "00:00:00:00:00:01"), (Opt.x, "7.5")] (by decide!)

/-! ### Nodes and applications -/

/-- C4: on every valid command line (one `Configure` accepts, with a well-formed
root) `CreateNodes` completes and creates exactly grid width times grid height
nodes, and every other valid command line, so in particular one that differs
only in `--x`, `--y` or `--start`, and every change of the disk centre or of the
start jitter bound in the configuration, leads to the same number of nodes. -/
theorem CreateNodes_node_count (argv : List String) (self : MeshModel) (tr : List Call)
    (hc : MeshModel.new.Configure argv = .ok self)
    (hr : (Mac48Address.ofString self.m_root).isSome = true) :
    ∃ s tr2, self.CreateNodes tr = .ok (s, tr2) ∧
      (s.nodes.length : Int) = self.m_xSize * self.m_ySize ∧
      Call.NodesCreate s.nodes.length ∈ tr2 ∧
      (∀ x y start : F64, ∃ s3 tr3,
        ({ self with m_x := x, m_y := y, m_randomStart := start } : MeshModel).CreateNodes tr
          = .ok (s3, tr3) ∧ s3.nodes.length = s.nodes.length) ∧
      (∀ (argv2 : List String) (self2 : MeshModel),
        MeshModel.new.Configure argv2 = .ok self2 →
        (Mac48Address.ofString self2.m_root).isSome = true →
        ∃ s4 tr4, self2.CreateNodes tr = .ok (s4, tr4) ∧ s4.nodes.length = s.nodes.length) := by
  obtain ⟨hx, hy, hn, _, _⟩ := Configured_frame self ⟨argv, hc⟩
  obtain ⟨a, ha⟩ := Option.isSome_iff_exists.mp hr
  refine ⟨_, _, CreateNodes_ok self tr a hx hy hn ha, ?_, ?_, ?_, ?_⟩
  · simp [hx, hy, gridNodes]
  · simp [gridNodes]
  · intro x y start
    exact ⟨_, _, CreateNodes_ok _ tr a hx hy hn ha, rfl⟩
  · intro argv2 self2 hc2 hr2
    obtain ⟨hx2, hy2, hn2, _, _⟩ := Configured_frame self2 ⟨argv2, hc2⟩
    obtain ⟨a2, ha2⟩ := Option.isSome_iff_exists.mp hr2
    exact ⟨_, _, CreateNodes_ok self2 tr a2 hx2 hy2 hn2 ha2, rfl⟩

/-- C4 at the command line without options. -/
theorem CreateNodes_node_count_witness :
    ∃ s tr2, MeshModel.new.CreateNodes [] = .ok (s, tr2) ∧
      (s.nodes.length : Int) = MeshModel.new.m_xSize * MeshModel.new.m_ySize ∧
      Call.NodesCreate s.nodes.length ∈ tr2 ∧
      (∀ x y start : F64, ∃ s3 tr3,
        ({ MeshModel.new with m_x := x, m_y := y, m_randomStart := start } :
          MeshModel).CreateNodes [] = .ok (s3, tr3) ∧ s3.nodes.length = s.nodes.length) ∧
      (∀ (argv2 : List String) (self2 : MeshModel),
        MeshModel.new.Configure argv2 = .ok self2 →
        (Mac48Address.ofString self2.m_root).isSome = true →
        ∃ s4 tr4, self2.CreateNodes [] = .ok (s4, tr4) ∧ s4.nodes.length = s.nodes.length) :=
  CreateNodes_node_count ["mesh_model"] MeshModel.new [] rfl (by decide)

/-- C5, the code at `--x=50 --y=20`: the configuration holds the disk centre
(50, 20), and the position allocator `CreateNodes` installs has `X = 100` and
`Y = 100`. -/
theorem positionAllocator_fixed_center :
    (MeshModel.new.Configure ["mesh_model", "--x=50", "--y=20"]).toOption.map
        (fun self => (self.m_x, self.m_y)) = some (F64.fin 50, F64.fin 20) ∧
      (traceOf (main ["mesh_model", "--x=50", "--y=20"])).get? 4 =
        some (Call.MobilityInstall
          ⟨some ⟨"ns3::RandomDiscPositionAllocator",
              [("X", .DoubleValue (.fin 100)), ("Y", .DoubleValue (.fin 100)),
                ("Rho", .StringValue "ns3::UniformRandomVariable[Min=0|Max=30]")]⟩,
            some mobilityModel⟩
          [0, 1, 2, 3, 4, 5, 6, 7, 8]) := by
  constructor
  · decide!
  · decide!

/-- C6: for every configuration the program runs with (a well-formed root and
a defined packet count), the three set-up phases complete and
`InstallApplication` installs the echo server with port 9 on node 0 and the echo client on node
`width * height - 1`, the last of the nodes created, pointed at port 9 of the
address assigned to device 0; both applications start at time 0 and stop at the
total run time. -/
theorem InstallApplication_endpoints (self : MeshModel) (tr : List Call)
    (hc : self.Configured)
    (hr : (Mac48Address.ofString self.m_root).isSome = true)
    (hm : self.maxPackets.isSome = true) :
    ∃ s1 t1 s2 t2 s3 t3 device address attrs,
      self.CreateNodes tr = .ok (s1, t1) ∧ s1.InstallInternetStack t1 = .ok (s2, t2) ∧
      s2.InstallApplication t2 = .ok (s3, t3) ∧
      s2.meshDevices[0]? = some device ∧ s2.interfaces[0]? = some (device, address) ∧
      s2.nodes[0]? = some 0 ∧
      (s2.nodes.length : Int) = self.m_xSize * self.m_ySize ∧
      toUint32 (self.m_xSize * self.m_ySize - 1) + 1 = s2.nodes.length ∧
      s2.nodes.getLast? = some (toUint32 (self.m_xSize * self.m_ySize - 1)) ∧
      t3 = t2 ++ [.EchoServerInstall ⟨9⟩ 0,
        .AppStart .serverApps (Seconds (.fin 0)),
        .AppStop .serverApps (Seconds self.m_totalTime),
        .EchoClientInstall ⟨address, 9, attrs⟩ (toUint32 (self.m_xSize * self.m_ySize - 1)),
        .AppStart .clientApps (Seconds (.fin 0)),
        .AppStop .clientApps (Seconds self.m_totalTime)] := by
  obtain ⟨hx, hy, hn, _, _⟩ := Configured_frame self hc
  obtain ⟨a, ha⟩ := Option.isSome_iff_exists.mp hr
  obtain ⟨n, hn2⟩ := Option.isSome_iff_exists.mp hm
  obtain ⟨r1, hr1⟩ := Install_cons (self.meshFor a) 0 [1, 2, 3, 4, 5, 6, 7, 8]
  obtain ⟨r2, hr2⟩ := Assign_cons addressBase ⟨0, 0⟩ r1
  have h8 : toUint32 8 = 8 := by decide
  have hdev : (self.meshFor a).Install gridNodes = ⟨0, 0⟩ :: r1 := hr1
  have k1 := CreateNodes_ok self tr a hx hy hn ha
  have k2 := InstallInternetStack_ok
    ({ self with
        nodes := gridNodes
        mesh := self.meshFor a
        meshDevices := (self.meshFor a).Install gridNodes } : MeshModel)
    (tr ++ [.NodesCreate 9, .WifiChannelCreate, .MeshInstall (self.meshFor a) gridNodes,
        .MobilityInstall ⟨some positionAllocator, some mobilityModel⟩ gridNodes])
  have k3 := InstallApplication_ok
    ({ self with
        nodes := gridNodes
        mesh := self.meshFor a
        meshDevices := (self.meshFor a).Install gridNodes
        interfaces := addressBase.Assign ((self.meshFor a).Install gridNodes) } : MeshModel)
    (tr ++ [.NodesCreate 9, .WifiChannelCreate, .MeshInstall (self.meshFor a) gridNodes,
        .MobilityInstall ⟨some positionAllocator, some mobilityModel⟩ gridNodes] ++
      [.InternetStackInstall gridNodes,
        .AddressAssign addressBase ((self.meshFor a).Install gridNodes)])
    n (self.meshFor a) hx hy rfl rfl hn2
  refine ⟨_, _, _, _, _, _, ⟨0, 0⟩, ⟨"10.1.1.0", "255.255.255.0", 1⟩,
    (self.clientFor n).attrs, k1, k2, k3, ?_, ?_, ?_, ?_, ?_, ?_, ?_⟩
  · simp [hdev]
  · show (addressBase.Assign ((self.meshFor a).Install gridNodes))[0]? = _
    rw [hdev, hr2]
    simp [addressBase]
  · simp [gridNodes]
  · simp [hx, hy, gridNodes]
  · simp [hx, hy, h8, gridNodes]
  · simp [hx, hy, h8, gridNodes]
  · simp [hx, hy, h8, lit_zero, MeshModel.clientFor]

/-- C6 at the constructor's defaults. -/
theorem InstallApplication_endpoints_witness :
    ∃ s1 t1 s2 t2 s3 t3 device address attrs,
      MeshModel.new.CreateNodes [] = .ok (s1, t1) ∧ s1.InstallInternetStack t1 = .ok (s2, t2) ∧
      s2.InstallApplication t2 = .ok (s3, t3) ∧
      s2.meshDevices[0]? = some device ∧ s2.interfaces[0]? = some (device, address) ∧
      s2.nodes[0]? = some 0 ∧
      (s2.nodes.length : Int) = MeshModel.new.m_xSize * MeshModel.new.m_ySize ∧
      toUint32 (MeshModel.new.m_xSize * MeshModel.new.m_ySize - 1) + 1 = s2.nodes.length ∧
      s2.nodes.getLast? = some (toUint32 (MeshModel.new.m_xSize * MeshModel.new.m_ySize - 1)) ∧
      t3 = t2 ++ [.EchoServerInstall ⟨9⟩ 0,
        .AppStart .serverApps (Seconds (.fin 0)),
        .AppStop .serverApps (Seconds MeshModel.new.m_totalTime),
        .EchoClientInstall ⟨address, 9, attrs⟩
          (toUint32 (MeshModel.new.m_xSize * MeshModel.new.m_ySize - 1)),
        .AppStart .clientApps (Seconds (.fin 0)),
        .AppStop .clientApps (Seconds MeshModel.new.m_totalTime)] :=
  InstallApplication_endpoints MeshModel.new [] ⟨["mesh_model"], rfl⟩ (by decide)
    (by decide!)

/-! ### The run -/

/-- C7: without command-line options the program sets up exactly this scenario:
9 nodes, the mesh stack `ns3::Dot11sStack` installed on all 9 without a `Root`
attribute, addresses assigned to the 9 devices from base 10.1.1.0 with mask
255.255.255.0, the echo server on node 0, the echo client on node 8 with
`MaxPackets = 50`, `Interval = 0.1 s` and `PacketSize = 1024`, one `Report`
scheduled at 5.0 s, the simulator stopped at 5.0 s, `Report` visiting 9 devices,
and return value 0. -/
theorem default_scenario :
    traceOf (main ["mesh_model"]) =
      [.LogComponentEnable "UdpEchoClientApplication" "LOG_LEVEL_INFO",
        .NodesCreate 9,
        .WifiChannelCreate,
        .MeshInstall
          { stack := some ⟨"ns3::Dot11sStack", []⟩
            spread := .SPREAD_CHANNELS
            mac := [("RandomStart", .TimeValue (Seconds (F64.lit (1 / 10))))]
            nInterfaces := 1 }
          [0, 1, 2, 3, 4, 5, 6, 7, 8],
        .MobilityInstall ⟨some positionAllocator, some mobilityModel⟩ [0, 1, 2, 3, 4, 5, 6, 7, 8],
        .InternetStackInstall [0, 1, 2, 3, 4, 5, 6, 7, 8],
        .AddressAssign ⟨"10.1.1.0", "255.255.255.0"⟩
          [⟨0, 0⟩, ⟨1, 0⟩, ⟨2, 0⟩, ⟨3, 0⟩, ⟨4, 0⟩, ⟨5, 0⟩, ⟨6, 0⟩, ⟨7, 0⟩, ⟨8, 0⟩],
        .EchoServerInstall ⟨9⟩ 0,
        .AppStart .serverApps (Seconds (.fin 0)),
        .AppStop .serverApps (Seconds (.fin 5)),
        .EchoClientInstall
          { remote := ⟨"10.1.1.0", "255.255.255.0", 1⟩
            port := 9
            attrs := [("MaxPackets", .UintegerValue 50),
              ("Interval", .TimeValue (Seconds (F64.lit (1 / 10)))),
              ("PacketSize", .UintegerValue 1024)] }
          8,
        .AppStart .clientApps (Seconds (.fin 0)),
        .AppStop .clientApps (Seconds (.fin 5)),
        .SimulatorSchedule (Seconds (.fin 5)) .Report,
        .SimulatorStop (Seconds (.fin 5)),
        .SimulatorRun,
        .SimulatorDestroy] ∧
      (main ["mesh_model"]).toOption.map (fun r => r.1) = some 0 ∧
      (main ["mesh_model"]).toOption.map (fun r => r.2.1.Report.2.length) = some 9 := by
  refine ⟨by decide!, by decide!, ?_⟩
  simp only [Report_eq]
  decide!

/-- C8: in every execution of the program, mesh device installation comes
before address assignment, which comes before the installation of the two
applications (an aborted execution stops somewhere along this sequence, a
completed one goes through all of it), and address assignment is never called
with an empty device set. -/
theorem Run_phase_order (argv : List String) :
    (traceOf (main argv)).filterMap Call.phase <+:
        [.deviceInstall, .addressAssign, .applicationInstall, .applicationInstall] ∧
      (∀ address devices, Call.AddressAssign address devices ∈ traceOf (main argv) →
        devices ≠ []) ∧
      (∀ r, main argv = .ok r →
        (traceOf (main argv)).filterMap Call.phase =
          [.deviceInstall, .addressAssign, .applicationInstall, .applicationInstall]) := by
  cases hc : MeshModel.new.Configure argv with
  | error e =>
    rw [main_error argv e hc]
    refine ⟨?_, ?_, ?_⟩
    · simp [traceOf, Call.phase]
    · intro address devices h
      simp [traceOf] at h
    · intro r h
      simp at h
  | ok self =>
    obtain ⟨hx, hy, hn, _, _⟩ := Configured_frame self ⟨argv, hc⟩
    rw [main_ok argv self hc]
    rcases Run_trace_cases self [.LogComponentEnable "UdpEchoClientApplication" "LOG_LEVEL_INFO"]
      hx hy hn with ⟨a, n, s, h⟩ | ⟨e, h⟩ | ⟨a, e, h⟩
    · rw [h]
      refine ⟨?_, ?_, ?_⟩
      · simp [traceOf, MeshModel.runCalls, Call.phase]
      · intro address devices hmem
        simp [traceOf, MeshModel.runCalls] at hmem
        rw [hmem.2]
        exact Install_gridNodes_ne_nil _
      · intro r _
        simp [traceOf, MeshModel.runCalls, Call.phase]
    · rw [h]
      refine ⟨?_, ?_, ?_⟩
      · simp [traceOf, Call.phase]
      · intro address devices hmem
        simp [traceOf] at hmem
      · intro r hr
        simp at hr
    · rw [h]
      refine ⟨?_, ?_, ?_⟩
      · simp [traceOf, MeshModel.runCalls, Call.phase]
      · intro address devices hmem
        simp [traceOf, MeshModel.runCalls] at hmem
        rw [hmem.2]
        exact Install_gridNodes_ne_nil _
      · intro r hr
        simp at hr

/-- C8 at the command line without options. -/
theorem Run_phase_order_witness :
    (traceOf (main ["mesh_model"])).filterMap Call.phase <+:
        [.deviceInstall, .addressAssign, .applicationInstall, .applicationInstall] ∧
      (∀ address devices, Call.AddressAssign address devices ∈ traceOf (main ["mesh_model"]) →
        devices ≠ []) ∧
      (∀ r, main ["mesh_model"] = .ok r →
        (traceOf (main ["mesh_model"])).filterMap Call.phase =
          [.deviceInstall, .addressAssign, .applicationInstall, .applicationInstall]) :=
  Run_phase_order ["mesh_model"]

/-- C9: for every configuration the program runs with (a well-formed root and
a defined packet count), `Run` completes with return value 0, schedules `Report`
exactly once, at the total run time, which is also the one stop time it sets;
and `Report`, called on the object `Run` leaves, visits the devices `mesh.Install`
produced, each once and in container order, and leaves the object unchanged. -/
theorem Run_schedules_report (self : MeshModel) (tr : List Call)
    (hc : self.Configured)
    (hr : (Mac48Address.ofString self.m_root).isSome = true)
    (hm : self.maxPackets.isSome = true) :
    ∃ s calls, self.Run tr = .ok (0, s, tr ++ calls) ∧
      calls.filterMap Call.scheduled = [(Seconds self.m_totalTime, .Report)] ∧
      calls.filterMap Call.stopTime = [Seconds self.m_totalTime] ∧
      (∃ mesh nodes, Call.MeshInstall mesh nodes ∈ calls ∧ s.meshDevices = mesh.Install nodes) ∧
      s.Report.2 = s.meshDevices ∧ s.Report.1 = s := by
  obtain ⟨hx, hy, hn, _, _⟩ := Configured_frame self hc
  obtain ⟨a, ha⟩ := Option.isSome_iff_exists.mp hr
  obtain ⟨n, hn2⟩ := Option.isSome_iff_exists.mp hm
  refine ⟨_, _, Run_ok self tr a n hx hy hn ha hn2, ?_, ?_, ?_, ?_, ?_⟩
  · simp [MeshModel.runCalls, Call.scheduled]
  · simp [MeshModel.runCalls, Call.stopTime]
  · exact ⟨self.meshFor a, gridNodes, by simp [MeshModel.runCalls], rfl⟩
  · rw [Report_eq]
  · rw [Report_eq]

/-- C9 at the constructor's defaults. -/
theorem Run_schedules_report_witness :
    ∃ s calls, MeshModel.new.Run [] = .ok (0, s, [] ++ calls) ∧
      calls.filterMap Call.scheduled = [(Seconds MeshModel.new.m_totalTime, .Report)] ∧
      calls.filterMap Call.stopTime = [Seconds MeshModel.new.m_totalTime] ∧
      (∃ mesh nodes, Call.MeshInstall mesh nodes ∈ calls ∧ s.meshDevices = mesh.Install nodes) ∧
      s.Report.2 = s.meshDevices ∧ s.Report.1 = s :=
  Run_schedules_report MeshModel.new [] ⟨["mesh_model"], rfl⟩ (by decide) (by decide!)

/-- C10: for every configuration the program runs with, replacing the
radio-interface count by any other value leaves the scenario `Run` sets up
unchanged except for the interface count handed to the mesh installer and the
device set that results from it: the node count, the server and client nodes,
the address base, the packet count and every other call argument are identical,
and the installer is told to spread the interfaces over distinct channels
whatever the count, so in particular when it is greater than 1. -/
theorem interfaces_change_only_radio (self : MeshModel) (k : Nat)
    (hc : self.Configured)
    (hr : (Mac48Address.ofString self.m_root).isSome = true)
    (hm : self.maxPackets.isSome = true) :
    ∃ s calls s2 calls2, self.Run [] = .ok (0, s, calls) ∧
      ({ self with m_nIfaces := k } : MeshModel).Run [] = .ok (0, s2, calls2) ∧
      calls.map Call.forgetInterfaces = calls2.map Call.forgetInterfaces ∧
      s.nodes = s2.nodes ∧
      clientAttribute "MaxPackets" calls = clientAttribute "MaxPackets" calls2 ∧
      (∃ nodes, Call.MeshInstall s2.mesh nodes ∈ calls2) ∧
      s2.mesh.nInterfaces = k ∧ s2.mesh.spread = .SPREAD_CHANNELS ∧
      s.mesh.spread = .SPREAD_CHANNELS := by
  obtain ⟨hx, hy, hn, _, _⟩ := Configured_frame self hc
  obtain ⟨a, ha⟩ := Option.isSome_iff_exists.mp hr
  obtain ⟨n, hn2⟩ := Option.isSome_iff_exists.mp hm
  have h1 := Run_ok self [] a n hx hy hn ha hn2
  have h2 := Run_ok ({ self with m_nIfaces := k } : MeshModel) [] a n hx hy hn ha hn2
  refine ⟨_, _, _, _, h1, h2, ?_, rfl, ?_, ?_, rfl, rfl, rfl⟩
  · simp [MeshModel.runCalls, Call.forgetInterfaces, MeshModel.meshFor, MeshModel.clientFor]
  · simp [MeshModel.runCalls, clientAttribute, MeshModel.clientFor]
  · exact ⟨gridNodes, by simp [MeshModel.runCalls]⟩

/-- C10 at the constructor's defaults against two radio interfaces. -/
theorem interfaces_change_only_radio_witness :
    ∃ s calls s2 calls2, MeshModel.new.Run [] = .ok (0, s, calls) ∧
      ({ MeshModel.new with m_nIfaces := 2 } : MeshModel).Run [] = .ok (0, s2, calls2) ∧
      calls.map Call.forgetInterfaces = calls2.map Call.forgetInterfaces ∧
      s.nodes = s2.nodes ∧
      clientAttribute "MaxPackets" calls = clientAttribute "MaxPackets" calls2 ∧
      (∃ nodes, Call.MeshInstall s2.mesh nodes ∈ calls2) ∧
      s2.mesh.nInterfaces = 2 ∧ s2.mesh.spread = .SPREAD_CHANNELS ∧
      s.mesh.spread = .SPREAD_CHANNELS :=
  interfaces_change_only_radio MeshModel.new 2 ⟨["mesh_model"], rfl⟩ (by decide) (by decide!)

end MeshSim
